import Mathlib

/-
Verification of scripts/sync_honors.py.

The script is a single ETL task: it fetches three JSON master-data files
(honors.json, bondsHonors.json, honorGroups.json) from a primary raw URL
with a CDN fallback, maps each JSON object to a row tuple, batch-upserts
the rows into three PostgreSQL tables inside one transaction, commits on
full success and rolls back on any exception, and reports a structured
summary.  main reads DATABASE_URL and SERVER from the environment and
exits nonzero on configuration errors or sync failure.

The embedding below models JSON values, the record mappers, the upsert
conflict policy, the fetch fallback, the run orchestrator and main.
External effects are oracles: the network is a function from URL to an
attempt outcome, and the database engine is a function saying which
database operation (if any) raises.
-/

/-- A JSON value, as produced by json parsing in the script. -/
inductive Jsonv where
  | null : Jsonv
  | bool : Bool → Jsonv
  | num : Int → Jsonv
  | str : String → Jsonv
  | arr : List Jsonv → Jsonv
  | obj : List (String × Jsonv) → Jsonv

mutual

/-- Boolean equality of JSON values. -/
def Jsonv.beq : Jsonv → Jsonv → Bool
  | Jsonv.null, Jsonv.null => true
  | Jsonv.bool a, Jsonv.bool b => a == b
  | Jsonv.num a, Jsonv.num b => a == b
  | Jsonv.str a, Jsonv.str b => a == b
  | Jsonv.arr xs, Jsonv.arr ys => Jsonv.beqList xs ys
  | Jsonv.obj xs, Jsonv.obj ys => Jsonv.beqObj xs ys
  | _, _ => false

/-- Boolean equality of JSON arrays. -/
def Jsonv.beqList : List Jsonv → List Jsonv → Bool
  | [], [] => true
  | x :: xs, y :: ys => Jsonv.beq x y && Jsonv.beqList xs ys
  | _, _ => false

/-- Boolean equality of JSON object field lists. -/
def Jsonv.beqObj : List (String × Jsonv) → List (String × Jsonv) → Bool
  | [], [] => true
  | (k1, v1) :: xs, (k2, v2) :: ys =>
      k1 == k2 && Jsonv.beq v1 v2 && Jsonv.beqObj xs ys
  | _, _ => false

end

mutual

theorem Jsonv.eq_of_beq : ∀ a b : Jsonv, Jsonv.beq a b = true → a = b
  | Jsonv.null, Jsonv.null, _ => rfl
  | Jsonv.bool a, Jsonv.bool b, h => congrArg Jsonv.bool (by simpa [Jsonv.beq] using h)
  | Jsonv.num a, Jsonv.num b, h => congrArg Jsonv.num (by simpa [Jsonv.beq] using h)
  | Jsonv.str a, Jsonv.str b, h => congrArg Jsonv.str (by simpa [Jsonv.beq] using h)
  | Jsonv.arr xs, Jsonv.arr ys, h => congrArg Jsonv.arr (Jsonv.eqList_of_beq xs ys h)
  | Jsonv.obj xs, Jsonv.obj ys, h => congrArg Jsonv.obj (Jsonv.eqObj_of_beq xs ys h)
  | Jsonv.null, Jsonv.bool _, h => Bool.noConfusion h
  | Jsonv.null, Jsonv.num _, h => Bool.noConfusion h
  | Jsonv.null, Jsonv.str _, h => Bool.noConfusion h
  | Jsonv.null, Jsonv.arr _, h => Bool.noConfusion h
  | Jsonv.null, Jsonv.obj _, h => Bool.noConfusion h
  | Jsonv.bool _, Jsonv.null, h => Bool.noConfusion h
  | Jsonv.bool _, Jsonv.num _, h => Bool.noConfusion h
  | Jsonv.bool _, Jsonv.str _, h => Bool.noConfusion h
  | Jsonv.bool _, Jsonv.arr _, h => Bool.noConfusion h
  | Jsonv.bool _, Jsonv.obj _, h => Bool.noConfusion h
  | Jsonv.num _, Jsonv.null, h => Bool.noConfusion h
  | Jsonv.num _, Jsonv.bool _, h => Bool.noConfusion h
  | Jsonv.num _, Jsonv.str _, h => Bool.noConfusion h
  | Jsonv.num _, Jsonv.arr _, h => Bool.noConfusion h
  | Jsonv.num _, Jsonv.obj _, h => Bool.noConfusion h
  | Jsonv.str _, Jsonv.null, h => Bool.noConfusion h
  | Jsonv.str _, Jsonv.bool _, h => Bool.noConfusion h
  | Jsonv.str _, Jsonv.num _, h => Bool.noConfusion h
  | Jsonv.str _, Jsonv.arr _, h => Bool.noConfusion h
  | Jsonv.str _, Jsonv.obj _, h => Bool.noConfusion h
  | Jsonv.arr _, Jsonv.null, h => Bool.noConfusion h
  | Jsonv.arr _, Jsonv.bool _, h => Bool.noConfusion h
  | Jsonv.arr _, Jsonv.num _, h => Bool.noConfusion h
  | Jsonv.arr _, Jsonv.str _, h => Bool.noConfusion h
  | Jsonv.arr _, Jsonv.obj _, h => Bool.noConfusion h
  | Jsonv.obj _, Jsonv.null, h => Bool.noConfusion h
  | Jsonv.obj _, Jsonv.bool _, h => Bool.noConfusion h
  | Jsonv.obj _, Jsonv.num _, h => Bool.noConfusion h
  | Jsonv.obj _, Jsonv.str _, h => Bool.noConfusion h
  | Jsonv.obj _, Jsonv.arr _, h => Bool.noConfusion h

theorem Jsonv.eqList_of_beq : ∀ xs ys : List Jsonv, Jsonv.beqList xs ys = true → xs = ys
  | [], [], _ => rfl
  | x :: xs, y :: ys, h => by
      have h1 : Jsonv.beq x y = true := (Bool.and_eq_true _ _ |>.mp h).1
      have h2 : Jsonv.beqList xs ys = true := (Bool.and_eq_true _ _ |>.mp h).2
      rw [Jsonv.eq_of_beq x y h1, Jsonv.eqList_of_beq xs ys h2]
  | [], _ :: _, h => Bool.noConfusion h
  | _ :: _, [], h => Bool.noConfusion h

theorem Jsonv.eqObj_of_beq :
    ∀ xs ys : List (String × Jsonv), Jsonv.beqObj xs ys = true → xs = ys
  | [], [], _ => rfl
  | (k1, v1) :: xs, (k2, v2) :: ys, h => by
      have h0 : (k1 == k2 && Jsonv.beq v1 v2) = true := (Bool.and_eq_true _ _ |>.mp h).1
      have h3 : Jsonv.beqObj xs ys = true := (Bool.and_eq_true _ _ |>.mp h).2
      have hk : k1 = k2 := by simpa using (Bool.and_eq_true _ _ |>.mp h0).1
      have hv : v1 = v2 := Jsonv.eq_of_beq v1 v2 (Bool.and_eq_true _ _ |>.mp h0).2
      rw [hk, hv, Jsonv.eqObj_of_beq xs ys h3]
  | [], _ :: _, h => Bool.noConfusion h
  | _ :: _, [], h => Bool.noConfusion h

end

mutual

theorem Jsonv.beq_refl : ∀ a : Jsonv, Jsonv.beq a a = true
  | Jsonv.null => rfl
  | Jsonv.bool a => by simp [Jsonv.beq]
  | Jsonv.num a => by simp [Jsonv.beq]
  | Jsonv.str a => by simp [Jsonv.beq]
  | Jsonv.arr xs => Jsonv.beqList_refl xs
  | Jsonv.obj xs => Jsonv.beqObj_refl xs

theorem Jsonv.beqList_refl : ∀ xs : List Jsonv, Jsonv.beqList xs xs = true
  | [] => rfl
  | x :: xs => by
      simp only [Jsonv.beqList, Bool.and_eq_true]
      exact ⟨Jsonv.beq_refl x, Jsonv.beqList_refl xs⟩

theorem Jsonv.beqObj_refl : ∀ xs : List (String × Jsonv), Jsonv.beqObj xs xs = true
  | [] => rfl
  | (k, v) :: xs => by
      simp only [Jsonv.beqObj, Bool.and_eq_true]
      exact ⟨⟨by simp, Jsonv.beq_refl v⟩, Jsonv.beqObj_refl xs⟩

end

instance : DecidableEq Jsonv := fun a b =>
  if h : Jsonv.beq a b = true then isTrue (Jsonv.eq_of_beq a b h)
  else isFalse (fun he => h (by rw [he]; exact Jsonv.beq_refl b))

/-- A JSON object: the field list of a Python dict decoded from JSON. -/
abbrev Item := List (String × Jsonv)

/-- Python item.get(k): the stored value, or None when the key is absent.
An explicit JSON null stored under the key also arrives as None in Python;
both are Jsonv.null here. -/
def jget (item : Item) (k : String) : Jsonv :=
  (item.lookup k).getD Jsonv.null

/-- Python item.get(k, d): the stored value, or the default d only when
the key is absent. -/
def jgetD (item : Item) (k : String) (d : Jsonv) : Jsonv :=
  (item.lookup k).getD d

/-- Python truthiness of a decoded JSON value (the script tests if not data). -/
def jsonFalsy : Jsonv → Bool
  | Jsonv.null => true
  | Jsonv.bool b => !b
  | Jsonv.num n => n == 0
  | Jsonv.str s => s == ""
  | Jsonv.arr xs => xs.isEmpty
  | Jsonv.obj kvs => kvs.isEmpty

/-- Field list of a JSON object.  A non-object element would make the
script raise AttributeError on item.get; the fetched files are arrays of
objects, and non-object elements are modelled as empty objects. -/
def objFields : Jsonv → Item
  | Jsonv.obj kvs => kvs
  | _ => []

/-- The elements of a fetched JSON array, as objects. -/
def jsonItems : Jsonv → List Item
  | Jsonv.arr xs => xs.map objFields
  | _ => []

/-- Row record for the honors table (sync_honors, lines 98-109). -/
structure HonorRec where
  server : String
  honor_id : Jsonv
  seq : Jsonv
  group_id : Jsonv
  honor_rarity : Jsonv
  name : Jsonv
  asset_bundle_name : Jsonv
  levels : Jsonv
deriving DecidableEq

/-- Row record for the bonds_honors table (sync_bonds_honors, lines 141-154). -/
structure BondsHonorRec where
  server : String
  bonds_honor_id : Jsonv
  seq : Jsonv
  bonds_group_id : Jsonv
  game_character_unit_id1 : Jsonv
  game_character_unit_id2 : Jsonv
  honor_rarity : Jsonv
  name : Jsonv
  description : Jsonv
  levels : Jsonv
deriving DecidableEq

/-- Row record for the honor_groups table (sync_honor_groups, lines 189-197). -/
structure HonorGroupRec where
  server : String
  group_id : Jsonv
  name : Jsonv
  honor_type : Jsonv
  background_asset_bundle_name : Jsonv
deriving DecidableEq

/-- Record mapper for honors: the tuple built at lines 100-109 of the
script.  Every field uses item.get(key) except levels, which uses
item.get(levels-key, []) and so defaults to an empty JSON array. -/
def honorRecOf (server : String) (item : Item) : HonorRec :=
  { server := server
    honor_id := jget item "id"
    seq := jget item "seq"
    group_id := jget item "groupId"
    honor_rarity := jget item "honorRarity"
    name := jget item "name"
    asset_bundle_name := jget item "assetbundleName"
    levels := jgetD item "levels" (Jsonv.arr []) }

/-- Record mapper for bonds honors: the tuple built at lines 143-154. -/
def bondsHonorRecOf (server : String) (item : Item) : BondsHonorRec :=
  { server := server
    bonds_honor_id := jget item "id"
    seq := jget item "seq"
    bonds_group_id := jget item "bondsGroupId"
    game_character_unit_id1 := jget item "gameCharacterUnitId1"
    game_character_unit_id2 := jget item "gameCharacterUnitId2"
    honor_rarity := jget item "honorRarity"
    name := jget item "name"
    description := jget item "description"
    levels := jgetD item "levels" (Jsonv.arr []) }

/-- Record mapper for honor groups: the tuple built at lines 191-197. -/
def honorGroupRecOf (server : String) (item : Item) : HonorGroupRec :=
  { server := server
    group_id := jget item "id"
    name := jget item "name"
    honor_type := jget item "honorType"
    background_asset_bundle_name := jget item "backgroundAssetbundleName" }

/-- Column list of the honors INSERT statement (lines 112-115). -/
def honorsColumns : List String :=
  ["server", "honor_id", "seq", "group_id", "honor_rarity",
   "name", "asset_bundle_name", "levels", "updated_at"]

/-- Column list of the bonds_honors INSERT statement (lines 157-161). -/
def bondsHonorsColumns : List String :=
  ["server", "bonds_honor_id", "seq", "bonds_group_id",
   "game_character_unit_id1", "game_character_unit_id2",
   "honor_rarity", "name", "description", "levels", "updated_at"]

/-- Column list of the honor_groups INSERT statement (lines 200-203). -/
def honorGroupsColumns : List String :=
  ["server", "group_id", "name", "honor_type",
   "background_asset_bundle_name", "updated_at"]

/-- The value tuple for one honors row, in the order of the template at
line 129; CURRENT_TIMESTAMP is appended by the template as a ninth value. -/
def honorTuple (r : HonorRec) : List Jsonv :=
  [Jsonv.str r.server, r.honor_id, r.seq, r.group_id, r.honor_rarity,
   r.name, r.asset_bundle_name, r.levels]

/-- The value tuple for one bonds_honors row (template at line 177). -/
def bondsHonorTuple (r : BondsHonorRec) : List Jsonv :=
  [Jsonv.str r.server, r.bonds_honor_id, r.seq, r.bonds_group_id,
   r.game_character_unit_id1, r.game_character_unit_id2,
   r.honor_rarity, r.name, r.description, r.levels]

/-- The value tuple for one honor_groups row (template at line 214). -/
def honorGroupTuple (r : HonorGroupRec) : List Jsonv :=
  [Jsonv.str r.server, r.group_id, r.name, r.honor_type,
   r.background_asset_bundle_name]

/-- A stored table row: the record columns plus the updated_at column. -/
structure Row (α : Type) where
  val : α
  updated_at : Nat
deriving DecidableEq

/-- Boolean membership in a list of keys. -/
def memKey {κ : Type} [DecidableEq κ] (ks : List κ) (k : κ) : Bool :=
  ks.any (fun x => x == k)

/-- Modelled from the spec: the table DDL is not in the repository, so
the conflict target of ON CONFLICT (server, item id) is modelled as a
unique identity (region, item id) per the data-model section of the spec.
One INSERT .. ON CONFLICT .. DO UPDATE row: if a stored row has the same
identity, every non-key column is replaced from EXCLUDED and updated_at
is refreshed; otherwise the row is inserted. -/
def upsertOne {α κ : Type} [DecidableEq κ] (key : α → κ) (n : Nat)
    (tbl : List (Row α)) (r : α) : List (Row α) :=
  if tbl.any (fun row => key row.val == key r) then
    tbl.map (fun row => if key row.val == key r then ⟨r, n⟩ else row)
  else
    tbl ++ [⟨r, n⟩]

/-- The batched upsert of execute_values: the submitted rows applied in
order against the table. -/
def upsertAll {α κ : Type} [DecidableEq κ] (key : α → κ) (n : Nat)
    (tbl : List (Row α)) (rs : List α) : List (Row α) :=
  rs.foldl (upsertOne key n) tbl

/-- One step of the evolution of a single stored position under the batch:
a later record with the same identity overwrites the accumulated row. -/
def stampRow {α κ : Type} [DecidableEq κ] (key : α → κ) (n : Nat) (k : κ)
    (acc : Row α) (r : α) : Row α :=
  if key r == k then ⟨r, n⟩ else acc

/-- How an existing stored row evolves under a whole batch. -/
def evolve {α κ : Type} [DecidableEq κ] (key : α → κ) (n : Nat)
    (rs : List α) (row : Row α) : Row α :=
  rs.foldl (stampRow key n (key row.val)) row

/-- The last record of the batch carrying the given identity, if any. -/
def pickLast {α κ : Type} [DecidableEq κ] (key : α → κ) :
    List α → κ → Option α
  | [], _ => none
  | r :: rs, k =>
    match pickLast key rs k with
    | some x => some x
    | none => if key r == k then some r else none

/-- The rows freshly inserted by a batch, given the identities already
present: one row per new identity, in order of first occurrence, holding
the last record of the batch with that identity. -/
def fresh {α κ : Type} [DecidableEq κ] (key : α → κ) (n : Nat) :
    List α → List κ → List (Row α)
  | [], _ => []
  | r :: rs, ks =>
    if memKey ks (key r) then fresh key n rs ks
    else (rs.foldl (stampRow key n (key r)) ⟨r, n⟩) :: fresh key n rs (ks ++ [key r])

/-- The identities of the stored rows, in storage order. -/
def keysOf {α κ : Type} (key : α → κ) (tbl : List (Row α)) : List κ :=
  tbl.map (fun row => key row.val)

/-- Conflict key of the honors table: ON CONFLICT (server, honor_id). -/
def honorKey (r : HonorRec) : String × Jsonv := (r.server, r.honor_id)

/-- Conflict key of bonds_honors: ON CONFLICT (server, bonds_honor_id). -/
def bondsKey (r : BondsHonorRec) : String × Jsonv := (r.server, r.bonds_honor_id)

/-- Conflict key of honor_groups: ON CONFLICT (server, group_id). -/
def groupKey (r : HonorGroupRec) : String × Jsonv := (r.server, r.group_id)

/-- The DO UPDATE SET clause of the honors statement (lines 116-123),
column by column: every non-key column from EXCLUDED, updated_at
refreshed to the current time. -/
def honorsConflictUpdate (old : Row HonorRec) (excluded : HonorRec) (n : Nat) :
    Row HonorRec :=
  { val :=
      { server := old.val.server
        honor_id := old.val.honor_id
        seq := excluded.seq
        group_id := excluded.group_id
        honor_rarity := excluded.honor_rarity
        name := excluded.name
        asset_bundle_name := excluded.asset_bundle_name
        levels := excluded.levels }
    updated_at := n }

/-- The DO UPDATE SET clause of the bonds_honors statement (lines 162-171). -/
def bondsConflictUpdate (old : Row BondsHonorRec) (excluded : BondsHonorRec)
    (n : Nat) : Row BondsHonorRec :=
  { val :=
      { server := old.val.server
        bonds_honor_id := old.val.bonds_honor_id
        seq := excluded.seq
        bonds_group_id := excluded.bonds_group_id
        game_character_unit_id1 := excluded.game_character_unit_id1
        game_character_unit_id2 := excluded.game_character_unit_id2
        honor_rarity := excluded.honor_rarity
        name := excluded.name
        description := excluded.description
        levels := excluded.levels }
    updated_at := n }

/-- The DO UPDATE SET clause of the honor_groups statement (lines 204-208). -/
def groupsConflictUpdate (old : Row HonorGroupRec) (excluded : HonorGroupRec)
    (n : Nat) : Row HonorGroupRec :=
  { val :=
      { server := old.val.server
        group_id := old.val.group_id
        name := excluded.name
        honor_type := excluded.honor_type
        background_asset_bundle_name := excluded.background_asset_bundle_name }
    updated_at := n }

/-- The per-server masterdata repository table (lines 27-33). -/
def SERVERS : List (String × String) :=
  [("cn", "haruki-sekai-sc-master"),
   ("jp", "haruki-sekai-master"),
   ("en", "haruki-sekai-en-master"),
   ("tw", "haruki-sekai-tc-master"),
   ("kr", "haruki-sekai-kr-master")]

/-- The per-server display names (lines 36-42). -/
def SERVER_NAMES : List (String × String) :=
  [("cn", "简体中文"),
   ("jp", "日本語"),
   ("en", "English"),
   ("tw", "繁體中文"),
   ("kr", "한국어")]

/-- RAW_URL_TEMPLATE (line 45) instantiated with a repo and a filename. -/
def rawUrl (repo file : String) : String :=
  "https://raw.githubusercontent.com/Team-Haruki/" ++ repo ++ "/main/master/" ++ file

/-- CDN_URL_TEMPLATE (line 48) instantiated with a repo and a filename. -/
def cdnUrl (repo file : String) : String :=
  "https://cdn.jsdelivr.net/gh/Team-Haruki/" ++ repo ++ "@main/master/" ++ file

/-- The candidate URL list built in fetch_json (lines 69-72): primary raw
URL first, CDN fallback second. -/
def fetchUrls (repo file : String) : List String := [rawUrl repo file, cdnUrl repo file]

/-- Outcome of one HTTP attempt against one URL.  requests.get can raise a
transport RequestException; raise_for_status raises on a non-success HTTP
status (also a RequestException); resp.json can raise JSONDecodeError;
otherwise the decoded JSON body is returned. -/
inductive Attempt where
  | transportError : String → Attempt
  | httpErrorStatus : String → Attempt
  | invalidJson : String → Attempt
  | ok : Jsonv → Attempt
deriving DecidableEq

/-- The network oracle: the outcome of requesting each URL once. -/
abbrev Net := String → Attempt

/-- The fetch loop of fetch_json (lines 74-90): try each URL in order,
return the first successfully decoded body; both exception kinds continue
to the next URL; if the list is exhausted return None.  The second
component records the URLs actually attempted, in order. -/
def fetchFrom (net : Net) : List String → Option Jsonv × List String
  | [] => (none, [])
  | u :: rest =>
    match net u with
    | Attempt.ok d => (some d, [u])
    | _ =>
      let p := fetchFrom net rest
      (p.1, u :: p.2)

/-- HonorsSyncer.fetch_json (lines 67-90): fetch one masterdata file. -/
def fetch_json (net : Net) (repo file : String) : Option Jsonv × List String :=
  fetchFrom net (fetchUrls repo file)

/-- The database operations that can raise inside a run, plus connecting. -/
inductive DbOp where
  | upsertHonorsOp : DbOp
  | upsertBondsOp : DbOp
  | upsertGroupsOp : DbOp
  | commitOp : DbOp
  | connectOp : DbOp
deriving DecidableEq

/-- The database engine oracle: for each operation, none means it
succeeds, some msg means it raises an exception whose description is msg. -/
abbrev Engine := DbOp → Option String

/-- Observable events of a run: each URL requested, each database
operation submitted, and the final rollback if one happens. -/
inductive Ev where
  | fetchAttempt : String → Ev
  | dbOpEv : DbOp → Ev
  | rollbackEv : Ev
deriving DecidableEq

/-- The visible database: the three tables the script writes. -/
structure Db where
  honors : List (Row HonorRec)
  bonds_honors : List (Row BondsHonorRec)
  honor_groups : List (Row HonorGroupRec)
deriving DecidableEq

/-- HonorsSyncer.sync_honors (lines 92-133): fetch honors.json; on a
falsy result (None or an empty array) return 0 without touching the
database; otherwise map every item to a record and submit one batched
upsert, returning the number of submitted rows.  A truthy non-array body
would make the Python loop raise; it is modelled as an empty batch. -/
def sync_honors (eng : Engine) (net : Net) (server repo : String) (now : Nat)
    (db : Db) : Except String (Db × Nat) × List Ev :=
  let fr := fetch_json net repo "honors.json"
  let fev := fr.2.map Ev.fetchAttempt
  match fr.1 with
  | none => (Except.ok (db, 0), fev)
  | some data =>
    if jsonFalsy data then (Except.ok (db, 0), fev)
    else
      let records := (jsonItems data).map (honorRecOf server)
      match eng DbOp.upsertHonorsOp with
      | some m => (Except.error m, fev ++ [Ev.dbOpEv DbOp.upsertHonorsOp])
      | none =>
        (Except.ok ({ db with honors := upsertAll honorKey now db.honors records },
                    records.length),
         fev ++ [Ev.dbOpEv DbOp.upsertHonorsOp])

/-- HonorsSyncer.sync_bonds_honors (lines 135-181). -/
def sync_bonds_honors (eng : Engine) (net : Net) (server repo : String) (now : Nat)
    (db : Db) : Except String (Db × Nat) × List Ev :=
  let fr := fetch_json net repo "bondsHonors.json"
  let fev := fr.2.map Ev.fetchAttempt
  match fr.1 with
  | none => (Except.ok (db, 0), fev)
  | some data =>
    if jsonFalsy data then (Except.ok (db, 0), fev)
    else
      let records := (jsonItems data).map (bondsHonorRecOf server)
      match eng DbOp.upsertBondsOp with
      | some m => (Except.error m, fev ++ [Ev.dbOpEv DbOp.upsertBondsOp])
      | none =>
        (Except.ok ({ db with bonds_honors := upsertAll bondsKey now db.bonds_honors records },
                    records.length),
         fev ++ [Ev.dbOpEv DbOp.upsertBondsOp])

/-- HonorsSyncer.sync_honor_groups (lines 183-218). -/
def sync_honor_groups (eng : Engine) (net : Net) (server repo : String) (now : Nat)
    (db : Db) : Except String (Db × Nat) × List Ev :=
  let fr := fetch_json net repo "honorGroups.json"
  let fev := fr.2.map Ev.fetchAttempt
  match fr.1 with
  | none => (Except.ok (db, 0), fev)
  | some data =>
    if jsonFalsy data then (Except.ok (db, 0), fev)
    else
      let records := (jsonItems data).map (honorGroupRecOf server)
      match eng DbOp.upsertGroupsOp with
      | some m => (Except.error m, fev ++ [Ev.dbOpEv DbOp.upsertGroupsOp])
      | none =>
        (Except.ok ({ db with honor_groups := upsertAll groupKey now db.honor_groups records },
                    records.length),
         fev ++ [Ev.dbOpEv DbOp.upsertGroupsOp])

/-- The structured summary dict built by HonorsSyncer.run (lines 222-230). -/
structure RunResult where
  server : String
  server_name : Option String
  honors : Nat
  bonds_honors : Nat
  honor_groups : Nat
  success : Bool
  error : Option String
deriving DecidableEq

/-- HonorsSyncer.run (lines 220-249): the three sync stages inside one
transaction; any exception rolls the whole transaction back (the visible
database reverts to the input db) and stores the exception description in
the error field; the commit is issued only after all three stages return;
success is set only after a successful commit.  Returns the visible
database after the run, the summary, and the event trace. -/
def runSync (eng : Engine) (net : Net) (server repo : String) (now : Nat)
    (db : Db) : Db × RunResult × List Ev :=
  let base : RunResult :=
    { server := server
      server_name := SERVER_NAMES.lookup server
      honors := 0
      bonds_honors := 0
      honor_groups := 0
      success := false
      error := none }
  match sync_honors eng net server repo now db with
  | (Except.error e, ev1) => (db, { base with error := some e }, ev1 ++ [Ev.rollbackEv])
  | (Except.ok (db1, n1), ev1) =>
    match sync_bonds_honors eng net server repo now db1 with
    | (Except.error e, ev2) =>
      (db, { base with honors := n1, error := some e }, ev1 ++ ev2 ++ [Ev.rollbackEv])
    | (Except.ok (db2, n2), ev2) =>
      match sync_honor_groups eng net server repo now db2 with
      | (Except.error e, ev3) =>
        (db, { base with honors := n1, bonds_honors := n2, error := some e },
         ev1 ++ ev2 ++ ev3 ++ [Ev.rollbackEv])
      | (Except.ok (db3, n3), ev3) =>
        match eng DbOp.commitOp with
        | some e =>
          (db, { base with honors := n1, bonds_honors := n2, honor_groups := n3,
                           error := some e },
           ev1 ++ ev2 ++ ev3 ++ [Ev.dbOpEv DbOp.commitOp, Ev.rollbackEv])
        | none =>
          (db3, { base with honors := n1, bonds_honors := n2, honor_groups := n3,
                            success := true },
           ev1 ++ ev2 ++ ev3 ++ [Ev.dbOpEv DbOp.commitOp])

/-- Whether all three sync stages return without raising, in the order
run executes them. -/
def stagesOk (eng : Engine) (net : Net) (server repo : String) (now : Nat)
    (db : Db) : Bool :=
  match sync_honors eng net server repo now db with
  | (Except.error _, _) => false
  | (Except.ok (db1, _), _) =>
    match sync_bonds_honors eng net server repo now db1 with
    | (Except.error _, _) => false
    | (Except.ok (db2, _), _) =>
      match sync_honor_groups eng net server repo now db2 with
      | (Except.error _, _) => false
      | (Except.ok _, _) => true

/-- The description of the first exception a run raises, if any: the
first failing stage's message, or else the commit outcome.  This is the
value run stores in the summary error field. -/
def runError (eng : Engine) (net : Net) (server repo : String) (now : Nat)
    (db : Db) : Option String :=
  match sync_honors eng net server repo now db with
  | (Except.error m, _) => some m
  | (Except.ok (db1, _), _) =>
    match sync_bonds_honors eng net server repo now db1 with
    | (Except.error m, _) => some m
    | (Except.ok (db2, _), _) =>
      match sync_honor_groups eng net server repo now db2 with
      | (Except.error m, _) => some m
      | (Except.ok _, _) => eng DbOp.commitOp

/-- HonorsSyncer.__init__ (lines 52-60): resolve the server to a repo,
raising for an unknown server before any connection attempt, then open
the database connection (which may itself raise). -/
def syncerInit (eng : Engine) (server : String) : Except String String × List Ev :=
  match SERVERS.lookup server with
  | none => (Except.error ("Unknown server: " ++ server), [])
  | some repo =>
    match eng DbOp.connectOp with
    | some m => (Except.error m, [Ev.dbOpEv DbOp.connectOp])
    | none => (Except.ok repo, [Ev.dbOpEv DbOp.connectOp])

/-- main (lines 252-283): exit 1 if DATABASE_URL is missing or empty;
read SERVER with default cn and exit 1 if it is not a known server key;
otherwise construct the syncer (an uncaught connection exception also
ends the process with a nonzero code), run the sync, and exit 0 exactly
when the summary has success true.  Returns the exit code and the event
trace. -/
def mainProg (eng : Engine) (net : Net) (env : String → Option String)
    (now : Nat) (db : Db) : Nat × List Ev :=
  match env "DATABASE_URL" with
  | none => (1, [])
  | some dburl =>
    if dburl = "" then (1, [])
    else
      let server := (env "SERVER").getD "cn"
      if (SERVERS.lookup server).isNone then (1, [])
      else
        match syncerInit eng server with
        | (Except.error _, ev) => (1, ev)
        | (Except.ok repo, ev) =>
          let r := runSync eng net server repo now db
          (if r.2.1.success then 0 else 1, ev ++ r.2.2)

/-- Whether an attempt produced a successfully decoded body. -/
def attemptOk : Attempt → Bool
  | Attempt.ok _ => true
  | _ => false

/-- The decoded body of an attempt, if any. -/
def attemptData : Attempt → Option Jsonv
  | Attempt.ok d => some d
  | _ => none

/-- An empty database, used as a concrete starting state. -/
def dbEmpty : Db := ⟨[], [], []⟩

/-- A network on which every request fails with a transport error. -/
def netDown : Net := fun _ => Attempt.transportError "connection refused"

/-- A network serving one honors record and nothing else. -/
def netHonorsOnly : Net := fun u =>
  if u = rawUrl "haruki-sekai-master" "honors.json"
  then Attempt.ok (Jsonv.arr [Jsonv.obj [("id", Jsonv.num 1)]])
  else Attempt.transportError "down"

/-- A network serving one honors record and one bonds record. -/
def netHonorsBonds : Net := fun u =>
  if u = rawUrl "haruki-sekai-master" "honors.json"
  then Attempt.ok (Jsonv.arr [Jsonv.obj [("id", Jsonv.num 1)]])
  else if u = rawUrl "haruki-sekai-master" "bondsHonors.json"
  then Attempt.ok (Jsonv.arr [Jsonv.obj [("id", Jsonv.num 2)]])
  else Attempt.transportError "down"

/-- A network serving an empty honors array and failing otherwise. -/
def netEmptyHonors : Net := fun u =>
  if u = rawUrl "haruki-sekai-master" "honors.json"
  then Attempt.ok (Jsonv.arr []) else Attempt.transportError "down"

/-- An engine on which every database operation succeeds. -/
def engNone : Engine := fun _ => none

/-- An engine on which the honors upsert raises. -/
def engFailHonors : Engine := fun op =>
  if op = DbOp.upsertHonorsOp then some "boom" else none

/-- An engine on which the bonds upsert raises. -/
def engFailBonds : Engine := fun op =>
  if op = DbOp.upsertBondsOp then some "boom" else none

/-- An empty environment. -/
def envNone : String → Option String := fun _ => none

/-- An environment with a database URL and the jp server selected. -/
def envFull : String → Option String := fun k =>
  if k = "DATABASE_URL" then some "postgres://example"
  else if k = "SERVER" then some "jp" else none

/-- An environment selecting an unknown server. -/
def envBadServer : String → Option String := fun k =>
  if k = "DATABASE_URL" then some "postgres://example"
  else if k = "SERVER" then some "xx" else none

/- Generic lemmas about the batched upsert. -/

theorem memKey_iff {κ : Type} [DecidableEq κ] (ks : List κ) (k : κ) :
    memKey ks k = true ↔ k ∈ ks := by
  simp only [memKey, List.any_eq_true, beq_iff_eq]
  exact ⟨fun ⟨x, hx, he⟩ => he ▸ hx, fun h => ⟨k, h, rfl⟩⟩

theorem foldStamp_char {α κ : Type} [DecidableEq κ] (key : α → κ) (n : Nat) (k : κ) :
    ∀ (rs : List α) (init : Row α),
      rs.foldl (stampRow key n k) init = (pickLast key rs k).elim init (fun x => ⟨x, n⟩) := by
  intro rs
  induction rs with
  | nil => intro init; rfl
  | cons r rs ih =>
    intro init
    simp only [List.foldl_cons, pickLast]
    rw [ih]
    cases hp : pickLast key rs k with
    | some x => simp [hp]
    | none =>
      by_cases h : key r = k
      · simp [hp, stampRow, h]
      · simp [hp, stampRow, h]

theorem pickLast_key {α κ : Type} [DecidableEq κ] (key : α → κ) :
    ∀ (rs : List α) (k : κ) (x : α), pickLast key rs k = some x → key x = k := by
  intro rs
  induction rs with
  | nil => intro k x h; exact Option.noConfusion h
  | cons r rs ih =>
    intro k x h
    simp only [pickLast] at h
    cases hp : pickLast key rs k with
    | some y =>
      rw [hp] at h
      have hyx : y = x := by simpa using h
      exact hyx ▸ ih k y hp
    | none =>
      rw [hp] at h
      by_cases hc : key r = k
      · rw [if_pos (beq_iff_eq.mpr hc)] at h
        cases h
        exact hc
      · rw [if_neg (by simpa using hc)] at h
        exact Option.noConfusion h

theorem pickLast_mem {α κ : Type} [DecidableEq κ] (key : α → κ) :
    ∀ (rs : List α) (k : κ) (x : α), pickLast key rs k = some x → x ∈ rs := by
  intro rs
  induction rs with
  | nil => intro k x h; exact Option.noConfusion h
  | cons r rs ih =>
    intro k x h
    simp only [pickLast] at h
    cases hp : pickLast key rs k with
    | some y =>
      rw [hp] at h
      have hyx : y = x := by simpa using h
      exact List.mem_cons_of_mem r (hyx ▸ ih k y hp)
    | none =>
      rw [hp] at h
      by_cases hc : key r = k
      · rw [if_pos (beq_iff_eq.mpr hc)] at h
        cases h
        exact List.mem_cons_self r rs
      · rw [if_neg (by simpa using hc)] at h
        exact Option.noConfusion h

theorem evolve_char {α κ : Type} [DecidableEq κ] (key : α → κ) (n : Nat)
    (rs : List α) (row : Row α) :
    evolve key n rs row = (pickLast key rs (key row.val)).elim row (fun x => ⟨x, n⟩) :=
  foldStamp_char key n (key row.val) rs row

theorem evolve_key {α κ : Type} [DecidableEq κ] (key : α → κ) (n : Nat)
    (rs : List α) (row : Row α) :
    key (evolve key n rs row).val = key row.val := by
  rw [evolve_char]
  cases hp : pickLast key rs (key row.val) with
  | none => rfl
  | some x => simpa using pickLast_key key rs (key row.val) x hp

theorem upsertAll_nil {α κ : Type} [DecidableEq κ] (key : α → κ) (n : Nat)
    (tbl : List (Row α)) : upsertAll key n tbl [] = tbl := rfl

theorem upsertAll_cons {α κ : Type} [DecidableEq κ] (key : α → κ) (n : Nat)
    (tbl : List (Row α)) (r : α) (rs : List α) :
    upsertAll key n tbl (r :: rs) = upsertAll key n (upsertOne key n tbl r) rs := rfl

theorem upsertAll_char {α κ : Type} [DecidableEq κ] (key : α → κ) (n : Nat) :
    ∀ (rs : List α) (tbl : List (Row α)),
      upsertAll key n tbl rs = tbl.map (evolve key n rs) ++ fresh key n rs (keysOf key tbl) := by
  intro rs
  induction rs with
  | nil =>
    intro tbl
    show tbl = tbl.map (evolve key n []) ++ fresh key n [] (keysOf key tbl)
    have h1 : tbl.map (evolve key n []) = tbl := by
      have hf : evolve key n [] = fun row : Row α => row := funext fun row => rfl
      rw [hf]
      simp
    rw [h1, fresh, List.append_nil]
  | cons r rs ih =>
    intro tbl
    rw [upsertAll_cons, ih]
    by_cases h : tbl.any (fun row => key row.val == key r) = true
    · have hrep : upsertOne key n tbl r
          = tbl.map (fun row => if key row.val == key r then (⟨r, n⟩ : Row α) else row) := by
        rw [upsertOne, if_pos h]
      have hmem : memKey (keysOf key tbl) (key r) = true := by
        rw [memKey_iff]
        rcases List.any_eq_true.mp h with ⟨row, hrow, hkey⟩
        exact List.mem_map.mpr ⟨row, hrow, beq_iff_eq.mp hkey⟩
      have hkeys : keysOf key (tbl.map
          (fun row => if key row.val == key r then (⟨r, n⟩ : Row α) else row))
          = keysOf key tbl := by
        simp only [keysOf, List.map_map]
        apply List.map_congr_left
        intro row _
        by_cases hc : key row.val = key r
        · simp [Function.comp, hc]
        · simp [Function.comp, hc]
      have hmap : (tbl.map
          (fun row => if key row.val == key r then (⟨r, n⟩ : Row α) else row)).map
            (evolve key n rs)
          = tbl.map (evolve key n (r :: rs)) := by
        rw [List.map_map]
        apply List.map_congr_left
        intro row _
        show evolve key n rs (if key row.val == key r then (⟨r, n⟩ : Row α) else row)
          = evolve key n (r :: rs) row
        by_cases hc : key row.val = key r
        · rw [if_pos (beq_iff_eq.mpr hc)]
          simp only [evolve, List.foldl_cons]
          have h1 : stampRow key n (key row.val) row r = ⟨r, n⟩ := by
            simp [stampRow, hc]
          rw [h1]
          have h2 : key ((⟨r, n⟩ : Row α)).val = key row.val := hc.symm
          rw [show key ((⟨r, n⟩ : Row α)).val = key row.val from hc.symm]
        · rw [if_neg (by simpa using hc)]
          simp only [evolve, List.foldl_cons]
          have h1 : stampRow key n (key row.val) row r = row := by
            have : ¬ key r = key row.val := fun hh => hc hh.symm
            simp [stampRow, this]
          rw [h1]
      have hfresh : fresh key n (r :: rs) (keysOf key tbl)
          = fresh key n rs (keysOf key tbl) := by
        simp [fresh, hmem]
      rw [hrep, hkeys, hmap, hfresh]
    · have happ : upsertOne key n tbl r = tbl ++ [⟨r, n⟩] := by
        rw [upsertOne, if_neg h]
      have hnone : ∀ row ∈ tbl, ¬ key row.val = key r := fun row hrow hc =>
        h (List.any_eq_true.mpr ⟨row, hrow, beq_iff_eq.mpr hc⟩)
      have hmem : memKey (keysOf key tbl) (key r) = false := by
        cases hb : memKey (keysOf key tbl) (key r) with
        | false => rfl
        | true =>
          exfalso
          rcases List.mem_map.mp ((memKey_iff _ _).mp hb) with ⟨row, hrow, hkeq⟩
          exact hnone row hrow hkeq
      have hkeysapp : keysOf key (tbl ++ [(⟨r, n⟩ : Row α)]) = keysOf key tbl ++ [key r] := by
        simp [keysOf]
      rw [happ, hkeysapp, List.map_append]
      have hfr : fresh key n (r :: rs) (keysOf key tbl)
          = (rs.foldl (stampRow key n (key r)) ⟨r, n⟩)
            :: fresh key n rs (keysOf key tbl ++ [key r]) := by
        simp [fresh, hmem]
      rw [hfr]
      have hmap2 : tbl.map (evolve key n (r :: rs)) = tbl.map (evolve key n rs) := by
        apply List.map_congr_left
        intro row hrow
        simp only [evolve, List.foldl_cons]
        have h1 : stampRow key n (key row.val) row r = row := by
          have : ¬ key r = key row.val := fun hh => hnone row hrow hh.symm
          simp [stampRow, this]
        rw [h1]
      have hsingle : ([(⟨r, n⟩ : Row α)]).map (evolve key n rs)
          = [rs.foldl (stampRow key n (key r)) ⟨r, n⟩] := by
        simp [evolve]
      rw [hmap2, hsingle, List.append_assoc]
      rfl

theorem fresh_pick {α κ : Type} [DecidableEq κ] (key : α → κ) (n : Nat) :
    ∀ (rs : List α) (ks : List κ) (row : Row α), row ∈ fresh key n rs ks →
      row.updated_at = n ∧ pickLast key rs (key row.val) = some row.val := by
  intro rs
  induction rs with
  | nil => intro ks row hrow; exact absurd hrow (by simp [fresh])
  | cons r rs ih =>
    intro ks row hrow
    by_cases hm : memKey ks (key r) = true
    · rw [show fresh key n (r :: rs) ks = fresh key n rs ks from by simp [fresh, hm]] at hrow
      obtain ⟨hts, hp⟩ := ih ks row hrow
      refine ⟨hts, ?_⟩
      simp only [pickLast]
      rw [hp]
    · rw [show fresh key n (r :: rs) ks
          = (rs.foldl (stampRow key n (key r)) ⟨r, n⟩)
            :: fresh key n rs (ks ++ [key r]) from by
            simp [fresh, Bool.eq_false_iff.mpr hm]] at hrow
      rcases List.mem_cons.mp hrow with hx | htail
      · subst hx
        rw [foldStamp_char key n (key r) rs]
        cases hp : pickLast key rs (key r) with
        | none =>
          refine ⟨rfl, ?_⟩
          simp only [Option.elim, pickLast, hp]
          simp
        | some y =>
          have hky : key y = key r := pickLast_key key rs (key r) y hp
          refine ⟨rfl, ?_⟩
          simp only [Option.elim, pickLast, hky, hp]
      · obtain ⟨hts, hp⟩ := ih (ks ++ [key r]) row htail
        refine ⟨hts, ?_⟩
        simp only [pickLast]
        rw [hp]

theorem fresh_covers {α κ : Type} [DecidableEq κ] (key : α → κ) (n : Nat) :
    ∀ (rs : List α) (ks : List κ) (r : α), r ∈ rs →
      key r ∈ ks ∨ key r ∈ keysOf key (fresh key n rs ks) := by
  intro rs
  induction rs with
  | nil => intro ks r hr; exact absurd hr (by simp)
  | cons r' rs ih =>
    intro ks r hr
    by_cases hm : memKey ks (key r') = true
    · have hfr : fresh key n (r' :: rs) ks = fresh key n rs ks := by simp [fresh, hm]
      rcases List.mem_cons.mp hr with he | htail
      · subst he
        exact Or.inl ((memKey_iff _ _).mp hm)
      · rw [hfr]
        exact ih ks r htail
    · have hfr : fresh key n (r' :: rs) ks
          = (rs.foldl (stampRow key n (key r')) ⟨r', n⟩)
            :: fresh key n rs (ks ++ [key r']) := by
        simp [fresh, Bool.eq_false_iff.mpr hm]
      have hheadkey : key (rs.foldl (stampRow key n (key r')) ⟨r', n⟩).val = key r' := by
        rw [foldStamp_char key n (key r') rs]
        cases hp : pickLast key rs (key r') with
        | none => rfl
        | some y => simpa using pickLast_key key rs (key r') y hp
      rcases List.mem_cons.mp hr with he | htail
      · subst he
        refine Or.inr ?_
        rw [hfr]
        simp only [keysOf, List.map_cons]
        rw [hheadkey]
        exact List.mem_cons_self _ _
      · rcases ih (ks ++ [key r']) r htail with hks | hfresh
        · rcases List.mem_append.mp hks with hin | hone
          · exact Or.inl hin
          · refine Or.inr ?_
            rw [hfr]
            simp only [keysOf, List.map_cons]
            rw [hheadkey]
            have : key r = key r' := by simpa using hone
            rw [this]
            exact List.mem_cons_self _ _
        · refine Or.inr ?_
          rw [hfr]
          simp only [keysOf, List.map_cons]
          exact List.mem_cons_of_mem _ hfresh

theorem fresh_nil_of_complete {α κ : Type} [DecidableEq κ] (key : α → κ) (n : Nat) :
    ∀ (rs : List α) (ks : List κ), (∀ r ∈ rs, memKey ks (key r) = true) →
      fresh key n rs ks = [] := by
  intro rs
  induction rs with
  | nil => intro ks _; rfl
  | cons r rs ih =>
    intro ks hall
    have hm : memKey ks (key r) = true := hall r (List.mem_cons_self r rs)
    rw [show fresh key n (r :: rs) ks = fresh key n rs ks from by simp [fresh, hm]]
    exact ih ks (fun r' hr' => hall r' (List.mem_cons_of_mem r hr'))

theorem keysOf_map_evolve {α κ : Type} [DecidableEq κ] (key : α → κ) (n : Nat)
    (rs : List α) (tbl : List (Row α)) :
    keysOf key (tbl.map (evolve key n rs)) = keysOf key tbl := by
  simp only [keysOf, List.map_map]
  apply List.map_congr_left
  intro row _
  exact evolve_key key n rs row

theorem upsertAll_keys_complete {α κ : Type} [DecidableEq κ] (key : α → κ) (n : Nat)
    (tbl : List (Row α)) (rs : List α) :
    ∀ r ∈ rs, key r ∈ keysOf key (upsertAll key n tbl rs) := by
  intro r hr
  rw [upsertAll_char key n rs tbl]
  simp only [keysOf, List.map_append]
  rcases fresh_covers key n rs (keysOf key tbl) r hr with hin | hfresh
  · refine List.mem_append.mpr (Or.inl ?_)
    have := keysOf_map_evolve key n rs tbl
    simp only [keysOf] at this hin ⊢
    rw [this]
    exact hin
  · refine List.mem_append.mpr (Or.inr ?_)
    simpa [keysOf] using hfresh

theorem upsertAll_inv {α κ : Type} [DecidableEq κ] (key : α → κ) (n : Nat)
    (tbl : List (Row α)) (rs : List α) :
    ∀ row ∈ upsertAll key n tbl rs,
      pickLast key rs (key row.val) = none ∨
      (pickLast key rs (key row.val) = some row.val ∧ row.updated_at = n) := by
  intro row hrow
  rw [upsertAll_char key n rs tbl] at hrow
  rcases List.mem_append.mp hrow with hmap | hfresh
  · rcases List.mem_map.mp hmap with ⟨row0, hrow0, heq⟩
    rw [evolve_char] at heq
    cases hp : pickLast key rs (key row0.val) with
    | none =>
      rw [hp] at heq
      simp only [Option.elim] at heq
      subst heq
      exact Or.inl hp
    | some x =>
      rw [hp] at heq
      simp only [Option.elim] at heq
      have hkx : key x = key row0.val := pickLast_key key rs (key row0.val) x hp
      refine Or.inr ?_
      subst heq
      constructor
      · simpa [hkx] using hp
      · rfl
  · obtain ⟨hts, hp⟩ := fresh_pick key n rs (keysOf key tbl) row hfresh
    exact Or.inr ⟨hp, hts⟩

theorem upsertAll_twice {α κ : Type} [DecidableEq κ] (key : α → κ) (n1 n2 : Nat)
    (tbl : List (Row α)) (rs : List α) :
    upsertAll key n2 (upsertAll key n1 tbl rs) rs
      = (upsertAll key n1 tbl rs).map
          (fun row => if (pickLast key rs (key row.val)).isSome
                      then ⟨row.val, n2⟩ else row) := by
  rw [upsertAll_char key n2 rs (upsertAll key n1 tbl rs)]
  have hfresh : fresh key n2 rs (keysOf key (upsertAll key n1 tbl rs)) = [] := by
    apply fresh_nil_of_complete
    intro r hr
    exact (memKey_iff _ _).mpr (upsertAll_keys_complete key n1 tbl rs r hr)
  rw [hfresh, List.append_nil]
  apply List.map_congr_left
  intro row hrow
  rw [evolve_char]
  rcases upsertAll_inv key n1 tbl rs row hrow with hnone | ⟨hsome, _⟩
  · rw [hnone]
    simp
  · rw [hsome]
    simp

theorem upsertAll_twice_val {α κ : Type} [DecidableEq κ] (key : α → κ) (n1 n2 : Nat)
    (tbl : List (Row α)) (rs : List α) :
    (upsertAll key n2 (upsertAll key n1 tbl rs) rs).map Row.val
      = (upsertAll key n1 tbl rs).map Row.val := by
  rw [upsertAll_twice, List.map_map]
  apply List.map_congr_left
  intro row _
  by_cases h : (pickLast key rs (key row.val)).isSome <;> simp [Function.comp, h]

theorem upsertAll_replaces {α κ : Type} [DecidableEq κ] (key : α → κ) (n : Nat)
    (tbl : List (Row α)) (rs : List α) (r : α)
    (hlast : pickLast key rs (key r) = some r) :
    (∃ row ∈ upsertAll key n tbl rs, key row.val = key r) ∧
    (∀ row ∈ upsertAll key n tbl rs, key row.val = key r → row = ⟨r, n⟩) := by
  constructor
  · have hr : r ∈ rs := pickLast_mem key rs (key r) r hlast
    have hk := upsertAll_keys_complete key n tbl rs r hr
    rcases List.mem_map.mp hk with ⟨row, hrow, hkeq⟩
    exact ⟨row, hrow, hkeq⟩
  · intro row hrow hk
    rcases upsertAll_inv key n tbl rs row hrow with hnone | ⟨hsome, hts⟩
    · rw [hk, hlast] at hnone
      exact Option.noConfusion hnone
    · rw [hk, hlast] at hsome
      have hv : r = row.val := by injection hsome
      obtain ⟨v, t⟩ := row
      simp only at hv hts
      rw [← hv, hts]

/- Lemmas about the fetch fallback. -/

theorem rawUrl_length (repo file : String) :
    (rawUrl repo file).length = 59 + repo.length + file.length := by
  have h1 : ("https://raw.githubusercontent.com/Team-Haruki/" : String).length = 46 := by decide
  have h2 : ("/main/master/" : String).length = 13 := by decide
  simp [rawUrl, String.length_append, h1, h2]
  omega

theorem cdnUrl_length (repo file : String) :
    (cdnUrl repo file).length = 53 + repo.length + file.length := by
  have h1 : ("https://cdn.jsdelivr.net/gh/Team-Haruki/" : String).length = 40 := by decide
  have h2 : ("@main/master/" : String).length = 13 := by decide
  simp [cdnUrl, String.length_append, h1, h2]
  omega

theorem rawUrl_ne_cdnUrl (repo file : String) : rawUrl repo file ≠ cdnUrl repo file := by
  intro h
  have := congrArg String.length h
  rw [rawUrl_length, cdnUrl_length] at this
  omega

theorem fetchFrom_nil (net : Net) : fetchFrom net [] = (none, []) := rfl

theorem fetchFrom_ok (net : Net) (u : String) (rest : List String) (d : Jsonv)
    (h : net u = Attempt.ok d) : fetchFrom net (u :: rest) = (some d, [u]) := by
  simp [fetchFrom, h]

theorem fetchFrom_fail (net : Net) (u : String) (rest : List String)
    (h : attemptOk (net u) = false) :
    fetchFrom net (u :: rest) = ((fetchFrom net rest).1, u :: (fetchFrom net rest).2) := by
  cases ha : net u with
  | ok d => rw [ha] at h; exact absurd h (by simp [attemptOk])
  | transportError m => simp [fetchFrom, ha]
  | httpErrorStatus m => simp [fetchFrom, ha]
  | invalidJson m => simp [fetchFrom, ha]

theorem fetch_json_bothFail (net : Net) (repo file : String)
    (h1 : attemptOk (net (rawUrl repo file)) = false)
    (h2 : attemptOk (net (cdnUrl repo file)) = false) :
    fetch_json net repo file = (none, [rawUrl repo file, cdnUrl repo file]) := by
  unfold fetch_json fetchUrls
  rw [fetchFrom_fail net _ _ h1, fetchFrom_fail net _ _ h2, fetchFrom_nil]

/- Lemmas about the sync stages. -/

theorem sync_honors_fetch_none (eng : Engine) (net : Net) (server repo : String)
    (now : Nat) (db : Db)
    (h : (fetch_json net repo "honors.json").1 = none) :
    sync_honors eng net server repo now db
      = (Except.ok (db, 0), (fetch_json net repo "honors.json").2.map Ev.fetchAttempt) := by
  unfold sync_honors
  dsimp only
  rw [h]

theorem sync_bonds_fetch_none (eng : Engine) (net : Net) (server repo : String)
    (now : Nat) (db : Db)
    (h : (fetch_json net repo "bondsHonors.json").1 = none) :
    sync_bonds_honors eng net server repo now db
      = (Except.ok (db, 0), (fetch_json net repo "bondsHonors.json").2.map Ev.fetchAttempt) := by
  unfold sync_bonds_honors
  dsimp only
  rw [h]

theorem sync_groups_fetch_none (eng : Engine) (net : Net) (server repo : String)
    (now : Nat) (db : Db)
    (h : (fetch_json net repo "honorGroups.json").1 = none) :
    sync_honor_groups eng net server repo now db
      = (Except.ok (db, 0), (fetch_json net repo "honorGroups.json").2.map Ev.fetchAttempt) := by
  unfold sync_honor_groups
  dsimp only
  rw [h]

theorem sync_honors_falsy (eng : Engine) (net : Net) (server repo : String)
    (now : Nat) (db : Db) (d : Jsonv)
    (h : (fetch_json net repo "honors.json").1 = some d) (hf : jsonFalsy d = true) :
    sync_honors eng net server repo now db
      = (Except.ok (db, 0), (fetch_json net repo "honors.json").2.map Ev.fetchAttempt) := by
  unfold sync_honors
  dsimp only
  rw [h]
  simp [hf]

theorem sync_bonds_falsy (eng : Engine) (net : Net) (server repo : String)
    (now : Nat) (db : Db) (d : Jsonv)
    (h : (fetch_json net repo "bondsHonors.json").1 = some d) (hf : jsonFalsy d = true) :
    sync_bonds_honors eng net server repo now db
      = (Except.ok (db, 0), (fetch_json net repo "bondsHonors.json").2.map Ev.fetchAttempt) := by
  unfold sync_bonds_honors
  dsimp only
  rw [h]
  simp [hf]

theorem sync_groups_falsy (eng : Engine) (net : Net) (server repo : String)
    (now : Nat) (db : Db) (d : Jsonv)
    (h : (fetch_json net repo "honorGroups.json").1 = some d) (hf : jsonFalsy d = true) :
    sync_honor_groups eng net server repo now db
      = (Except.ok (db, 0), (fetch_json net repo "honorGroups.json").2.map Ev.fetchAttempt) := by
  unfold sync_honor_groups
  dsimp only
  rw [h]
  simp [hf]

theorem sync_honors_ok_of_eng_none (eng : Engine) (net : Net) (server repo : String)
    (now : Nat) (db : Db) (h : eng DbOp.upsertHonorsOp = none) :
    ∃ p, (sync_honors eng net server repo now db).1 = Except.ok p := by
  unfold sync_honors
  dsimp only
  cases hf : (fetch_json net repo "honors.json").1 with
  | none => exact ⟨(db, 0), rfl⟩
  | some d =>
    by_cases hfa : jsonFalsy d = true
    · simp [hfa]
    · simp [hfa, h]

theorem sync_bonds_ok_of_eng_none (eng : Engine) (net : Net) (server repo : String)
    (now : Nat) (db : Db) (h : eng DbOp.upsertBondsOp = none) :
    ∃ p, (sync_bonds_honors eng net server repo now db).1 = Except.ok p := by
  unfold sync_bonds_honors
  dsimp only
  cases hf : (fetch_json net repo "bondsHonors.json").1 with
  | none => exact ⟨(db, 0), rfl⟩
  | some d =>
    by_cases hfa : jsonFalsy d = true
    · simp [hfa]
    · simp [hfa, h]

theorem sync_groups_ok_of_eng_none (eng : Engine) (net : Net) (server repo : String)
    (now : Nat) (db : Db) (h : eng DbOp.upsertGroupsOp = none) :
    ∃ p, (sync_honor_groups eng net server repo now db).1 = Except.ok p := by
  unfold sync_honor_groups
  dsimp only
  cases hf : (fetch_json net repo "honorGroups.json").1 with
  | none => exact ⟨(db, 0), rfl⟩
  | some d =>
    by_cases hfa : jsonFalsy d = true
    · simp [hfa]
    · simp [hfa, h]

theorem sync_honors_events (eng : Engine) (net : Net) (server repo : String)
    (now : Nat) (db : Db) :
    ∀ e ∈ (sync_honors eng net server repo now db).2,
      (∃ u, e = Ev.fetchAttempt u) ∨ e = Ev.dbOpEv DbOp.upsertHonorsOp := by
  intro e he
  unfold sync_honors at he
  dsimp only at he
  cases hf : (fetch_json net repo "honors.json").1 with
  | none =>
    rw [hf] at he
    simp only [List.mem_map] at he
    obtain ⟨u, _, he⟩ := he
    exact Or.inl ⟨u, he.symm⟩
  | some d =>
    rw [hf] at he
    by_cases hfa : jsonFalsy d = true
    · simp only [hfa, if_true] at he
      simp only [List.mem_map] at he
      obtain ⟨u, _, he⟩ := he
      exact Or.inl ⟨u, he.symm⟩
    · simp only [hfa] at he
      cases hop : eng DbOp.upsertHonorsOp with
      | some m =>
        rw [hop] at he
        have he2 : (∃ u ∈ (fetch_json net repo "honors.json").2, Ev.fetchAttempt u = e)
            ∨ e = Ev.dbOpEv DbOp.upsertHonorsOp := by simpa using he
        rcases he2 with ⟨u, _, heu⟩ | heq
        · exact Or.inl ⟨u, heu.symm⟩
        · exact Or.inr heq
      | none =>
        rw [hop] at he
        have he2 : (∃ u ∈ (fetch_json net repo "honors.json").2, Ev.fetchAttempt u = e)
            ∨ e = Ev.dbOpEv DbOp.upsertHonorsOp := by simpa using he
        rcases he2 with ⟨u, _, heu⟩ | heq
        · exact Or.inl ⟨u, heu.symm⟩
        · exact Or.inr heq

theorem sync_bonds_events (eng : Engine) (net : Net) (server repo : String)
    (now : Nat) (db : Db) :
    ∀ e ∈ (sync_bonds_honors eng net server repo now db).2,
      (∃ u, e = Ev.fetchAttempt u) ∨ e = Ev.dbOpEv DbOp.upsertBondsOp := by
  intro e he
  unfold sync_bonds_honors at he
  dsimp only at he
  cases hf : (fetch_json net repo "bondsHonors.json").1 with
  | none =>
    rw [hf] at he
    simp only [List.mem_map] at he
    obtain ⟨u, _, he⟩ := he
    exact Or.inl ⟨u, he.symm⟩
  | some d =>
    rw [hf] at he
    by_cases hfa : jsonFalsy d = true
    · simp only [hfa, if_true] at he
      simp only [List.mem_map] at he
      obtain ⟨u, _, he⟩ := he
      exact Or.inl ⟨u, he.symm⟩
    · simp only [hfa] at he
      cases hop : eng DbOp.upsertBondsOp with
      | some m =>
        rw [hop] at he
        have he2 : (∃ u ∈ (fetch_json net repo "bondsHonors.json").2, Ev.fetchAttempt u = e)
            ∨ e = Ev.dbOpEv DbOp.upsertBondsOp := by simpa using he
        rcases he2 with ⟨u, _, heu⟩ | heq
        · exact Or.inl ⟨u, heu.symm⟩
        · exact Or.inr heq
      | none =>
        rw [hop] at he
        have he2 : (∃ u ∈ (fetch_json net repo "bondsHonors.json").2, Ev.fetchAttempt u = e)
            ∨ e = Ev.dbOpEv DbOp.upsertBondsOp := by simpa using he
        rcases he2 with ⟨u, _, heu⟩ | heq
        · exact Or.inl ⟨u, heu.symm⟩
        · exact Or.inr heq

theorem sync_groups_events (eng : Engine) (net : Net) (server repo : String)
    (now : Nat) (db : Db) :
    ∀ e ∈ (sync_honor_groups eng net server repo now db).2,
      (∃ u, e = Ev.fetchAttempt u) ∨ e = Ev.dbOpEv DbOp.upsertGroupsOp := by
  intro e he
  unfold sync_honor_groups at he
  dsimp only at he
  cases hf : (fetch_json net repo "honorGroups.json").1 with
  | none =>
    rw [hf] at he
    simp only [List.mem_map] at he
    obtain ⟨u, _, he⟩ := he
    exact Or.inl ⟨u, he.symm⟩
  | some d =>
    rw [hf] at he
    by_cases hfa : jsonFalsy d = true
    · simp only [hfa, if_true] at he
      simp only [List.mem_map] at he
      obtain ⟨u, _, he⟩ := he
      exact Or.inl ⟨u, he.symm⟩
    · simp only [hfa] at he
      cases hop : eng DbOp.upsertGroupsOp with
      | some m =>
        rw [hop] at he
        have he2 : (∃ u ∈ (fetch_json net repo "honorGroups.json").2, Ev.fetchAttempt u = e)
            ∨ e = Ev.dbOpEv DbOp.upsertGroupsOp := by simpa using he
        rcases he2 with ⟨u, _, heu⟩ | heq
        · exact Or.inl ⟨u, heu.symm⟩
        · exact Or.inr heq
      | none =>
        rw [hop] at he
        have he2 : (∃ u ∈ (fetch_json net repo "honorGroups.json").2, Ev.fetchAttempt u = e)
            ∨ e = Ev.dbOpEv DbOp.upsertGroupsOp := by simpa using he
        rcases he2 with ⟨u, _, heu⟩ | heq
        · exact Or.inl ⟨u, heu.symm⟩
        · exact Or.inr heq

/- Lemmas about the run orchestrator. -/

theorem runSync_stage1_err (eng : Engine) (net : Net) (server repo : String)
    (now : Nat) (db : Db) (m : String) (ev1 : List Ev)
    (h1 : sync_honors eng net server repo now db = (Except.error m, ev1)) :
    runSync eng net server repo now db
      = (db,
         { server := server, server_name := SERVER_NAMES.lookup server,
           honors := 0, bonds_honors := 0, honor_groups := 0,
           success := false, error := some m },
         ev1 ++ [Ev.rollbackEv]) := by
  unfold runSync
  simp only [h1]

theorem runSync_stage2_err (eng : Engine) (net : Net) (server repo : String)
    (now : Nat) (db : Db) (db1 : Db) (n1 : Nat) (ev1 : List Ev)
    (m : String) (ev2 : List Ev)
    (h1 : sync_honors eng net server repo now db = (Except.ok (db1, n1), ev1))
    (h2 : sync_bonds_honors eng net server repo now db1 = (Except.error m, ev2)) :
    runSync eng net server repo now db
      = (db,
         { server := server, server_name := SERVER_NAMES.lookup server,
           honors := n1, bonds_honors := 0, honor_groups := 0,
           success := false, error := some m },
         ev1 ++ ev2 ++ [Ev.rollbackEv]) := by
  unfold runSync
  simp only [h1, h2]

theorem runSync_stage3_err (eng : Engine) (net : Net) (server repo : String)
    (now : Nat) (db : Db) (db1 : Db) (n1 : Nat) (ev1 : List Ev)
    (db2 : Db) (n2 : Nat) (ev2 : List Ev) (m : String) (ev3 : List Ev)
    (h1 : sync_honors eng net server repo now db = (Except.ok (db1, n1), ev1))
    (h2 : sync_bonds_honors eng net server repo now db1 = (Except.ok (db2, n2), ev2))
    (h3 : sync_honor_groups eng net server repo now db2 = (Except.error m, ev3)) :
    runSync eng net server repo now db
      = (db,
         { server := server, server_name := SERVER_NAMES.lookup server,
           honors := n1, bonds_honors := n2, honor_groups := 0,
           success := false, error := some m },
         ev1 ++ ev2 ++ ev3 ++ [Ev.rollbackEv]) := by
  unfold runSync
  simp only [h1, h2, h3]

theorem runSync_commit_err (eng : Engine) (net : Net) (server repo : String)
    (now : Nat) (db : Db) (db1 : Db) (n1 : Nat) (ev1 : List Ev)
    (db2 : Db) (n2 : Nat) (ev2 : List Ev) (db3 : Db) (n3 : Nat) (ev3 : List Ev)
    (m : String)
    (h1 : sync_honors eng net server repo now db = (Except.ok (db1, n1), ev1))
    (h2 : sync_bonds_honors eng net server repo now db1 = (Except.ok (db2, n2), ev2))
    (h3 : sync_honor_groups eng net server repo now db2 = (Except.ok (db3, n3), ev3))
    (hc : eng DbOp.commitOp = some m) :
    runSync eng net server repo now db
      = (db,
         { server := server, server_name := SERVER_NAMES.lookup server,
           honors := n1, bonds_honors := n2, honor_groups := n3,
           success := false, error := some m },
         ev1 ++ ev2 ++ ev3 ++ [Ev.dbOpEv DbOp.commitOp, Ev.rollbackEv]) := by
  unfold runSync
  simp only [h1, h2, h3, hc]

theorem runSync_commit_ok (eng : Engine) (net : Net) (server repo : String)
    (now : Nat) (db : Db) (db1 : Db) (n1 : Nat) (ev1 : List Ev)
    (db2 : Db) (n2 : Nat) (ev2 : List Ev) (db3 : Db) (n3 : Nat) (ev3 : List Ev)
    (h1 : sync_honors eng net server repo now db = (Except.ok (db1, n1), ev1))
    (h2 : sync_bonds_honors eng net server repo now db1 = (Except.ok (db2, n2), ev2))
    (h3 : sync_honor_groups eng net server repo now db2 = (Except.ok (db3, n3), ev3))
    (hc : eng DbOp.commitOp = none) :
    runSync eng net server repo now db
      = (db3,
         { server := server, server_name := SERVER_NAMES.lookup server,
           honors := n1, bonds_honors := n2, honor_groups := n3,
           success := true, error := none },
         ev1 ++ ev2 ++ ev3 ++ [Ev.dbOpEv DbOp.commitOp]) := by
  unfold runSync
  simp only [h1, h2, h3, hc]

theorem stagesOk_stage1_err (eng : Engine) (net : Net) (server repo : String)
    (now : Nat) (db : Db) (m : String) (ev1 : List Ev)
    (h1 : sync_honors eng net server repo now db = (Except.error m, ev1)) :
    stagesOk eng net server repo now db = false := by
  unfold stagesOk
  simp only [h1]

theorem stagesOk_stage2_err (eng : Engine) (net : Net) (server repo : String)
    (now : Nat) (db : Db) (db1 : Db) (n1 : Nat) (ev1 : List Ev)
    (m : String) (ev2 : List Ev)
    (h1 : sync_honors eng net server repo now db = (Except.ok (db1, n1), ev1))
    (h2 : sync_bonds_honors eng net server repo now db1 = (Except.error m, ev2)) :
    stagesOk eng net server repo now db = false := by
  unfold stagesOk
  simp only [h1, h2]

theorem stagesOk_stage3_err (eng : Engine) (net : Net) (server repo : String)
    (now : Nat) (db : Db) (db1 : Db) (n1 : Nat) (ev1 : List Ev)
    (db2 : Db) (n2 : Nat) (ev2 : List Ev) (m : String) (ev3 : List Ev)
    (h1 : sync_honors eng net server repo now db = (Except.ok (db1, n1), ev1))
    (h2 : sync_bonds_honors eng net server repo now db1 = (Except.ok (db2, n2), ev2))
    (h3 : sync_honor_groups eng net server repo now db2 = (Except.error m, ev3)) :
    stagesOk eng net server repo now db = false := by
  unfold stagesOk
  simp only [h1, h2, h3]

theorem stagesOk_all_ok (eng : Engine) (net : Net) (server repo : String)
    (now : Nat) (db : Db) (db1 : Db) (n1 : Nat) (ev1 : List Ev)
    (db2 : Db) (n2 : Nat) (ev2 : List Ev) (db3 : Db) (n3 : Nat) (ev3 : List Ev)
    (h1 : sync_honors eng net server repo now db = (Except.ok (db1, n1), ev1))
    (h2 : sync_bonds_honors eng net server repo now db1 = (Except.ok (db2, n2), ev2))
    (h3 : sync_honor_groups eng net server repo now db2 = (Except.ok (db3, n3), ev3)) :
    stagesOk eng net server repo now db = true := by
  unfold stagesOk
  simp only [h1, h2, h3]

theorem commit_notin_honors_events (eng : Engine) (net : Net) (server repo : String)
    (now : Nat) (db : Db) :
    Ev.dbOpEv DbOp.commitOp ∉ (sync_honors eng net server repo now db).2 := by
  intro hmem
  rcases sync_honors_events eng net server repo now db _ hmem with ⟨u, hu⟩ | hx
  · exact Ev.noConfusion hu
  · exact absurd hx (by decide)

theorem commit_notin_bonds_events (eng : Engine) (net : Net) (server repo : String)
    (now : Nat) (db : Db) :
    Ev.dbOpEv DbOp.commitOp ∉ (sync_bonds_honors eng net server repo now db).2 := by
  intro hmem
  rcases sync_bonds_events eng net server repo now db _ hmem with ⟨u, hu⟩ | hx
  · exact Ev.noConfusion hu
  · exact absurd hx (by decide)

theorem commit_notin_groups_events (eng : Engine) (net : Net) (server repo : String)
    (now : Nat) (db : Db) :
    Ev.dbOpEv DbOp.commitOp ∉ (sync_honor_groups eng net server repo now db).2 := by
  intro hmem
  rcases sync_groups_events eng net server repo now db _ hmem with ⟨u, hu⟩ | hx
  · exact Ev.noConfusion hu
  · exact absurd hx (by decide)

/-- C1: for every run, any exception in a sync stage or at commit rolls
the whole transaction back (the visible database is unchanged, a rollback
is issued, success stays false), the exception description is stored in
the summary error field (the error field always equals the first raised
description), and the commit is issued exactly when no sync stage raised. -/
theorem C1_transaction_atomicity (eng : Engine) (net : Net) (server repo : String)
    (now : Nat) (db : Db) :
    (runSync eng net server repo now db).2.1.error = runError eng net server repo now db ∧
    (∀ m, (runSync eng net server repo now db).2.1.error = some m →
      (runSync eng net server repo now db).1 = db ∧
      (runSync eng net server repo now db).2.1.success = false ∧
      Ev.rollbackEv ∈ (runSync eng net server repo now db).2.2) ∧
    (Ev.dbOpEv DbOp.commitOp ∈ (runSync eng net server repo now db).2.2 ↔
      stagesOk eng net server repo now db = true) := by
  rcases hs1 : sync_honors eng net server repo now db with ⟨r1, ev1⟩
  have hc1 := commit_notin_honors_events eng net server repo now db
  rw [hs1] at hc1
  cases r1 with
  | error m =>
    have hrun := runSync_stage1_err eng net server repo now db m ev1 hs1
    have hok := stagesOk_stage1_err eng net server repo now db m ev1 hs1
    have herr : runError eng net server repo now db = some m := by
      unfold runError
      simp only [hs1]
    refine ⟨by rw [hrun, herr], fun m' _ => by rw [hrun]; exact ⟨rfl, rfl, by simp⟩, ?_⟩
    rw [hrun, hok]
    simp only [Bool.false_eq_true, iff_false]
    intro hmem
    rcases List.mem_append.mp hmem with hin | hone
    · exact hc1 hin
    · simp at hone
  | ok p1 =>
    obtain ⟨db1, n1⟩ := p1
    rcases hs2 : sync_bonds_honors eng net server repo now db1 with ⟨r2, ev2⟩
    have hc2 := commit_notin_bonds_events eng net server repo now db1
    rw [hs2] at hc2
    cases r2 with
    | error m =>
      have hrun := runSync_stage2_err eng net server repo now db db1 n1 ev1 m ev2 hs1 hs2
      have hok := stagesOk_stage2_err eng net server repo now db db1 n1 ev1 m ev2 hs1 hs2
      have herr : runError eng net server repo now db = some m := by
        unfold runError
        simp only [hs1, hs2]
      refine ⟨by rw [hrun, herr], fun m' _ => by rw [hrun]; exact ⟨rfl, rfl, by simp⟩, ?_⟩
      rw [hrun, hok]
      simp only [Bool.false_eq_true, iff_false]
      intro hmem
      rcases List.mem_append.mp hmem with hin | hone
      · rcases List.mem_append.mp hin with ha | hb
        · exact hc1 ha
        · exact hc2 hb
      · simp at hone
    | ok p2 =>
      obtain ⟨db2, n2⟩ := p2
      rcases hs3 : sync_honor_groups eng net server repo now db2 with ⟨r3, ev3⟩
      have hc3 := commit_notin_groups_events eng net server repo now db2
      rw [hs3] at hc3
      cases r3 with
      | error m =>
        have hrun := runSync_stage3_err eng net server repo now db db1 n1 ev1 db2 n2 ev2 m ev3 hs1 hs2 hs3
        have hok := stagesOk_stage3_err eng net server repo now db db1 n1 ev1 db2 n2 ev2 m ev3 hs1 hs2 hs3
        have herr : runError eng net server repo now db = some m := by
          unfold runError
          simp only [hs1, hs2, hs3]
        refine ⟨by rw [hrun, herr], fun m' _ => by rw [hrun]; exact ⟨rfl, rfl, by simp⟩, ?_⟩
        rw [hrun, hok]
        simp only [Bool.false_eq_true, iff_false]
        intro hmem
        rcases List.mem_append.mp hmem with hin | hone
        · rcases List.mem_append.mp hin with hin2 | hc
          · rcases List.mem_append.mp hin2 with ha | hb
            · exact hc1 ha
            · exact hc2 hb
          · exact hc3 hc
        · simp at hone
      | ok p3 =>
        obtain ⟨db3, n3⟩ := p3
        cases hcm : eng DbOp.commitOp with
        | some m =>
          have hrun := runSync_commit_err eng net server repo now db db1 n1 ev1 db2 n2 ev2 db3 n3 ev3 m hs1 hs2 hs3 hcm
          have hok := stagesOk_all_ok eng net server repo now db db1 n1 ev1 db2 n2 ev2 db3 n3 ev3 hs1 hs2 hs3
          have herr : runError eng net server repo now db = some m := by
            unfold runError
            simp only [hs1, hs2, hs3, hcm]
          refine ⟨by rw [hrun, herr], fun m' _ => by rw [hrun]; exact ⟨rfl, rfl, by simp⟩, ?_⟩
          rw [hrun, hok]
          simp only [iff_true]
          simp
        | none =>
          have hrun := runSync_commit_ok eng net server repo now db db1 n1 ev1 db2 n2 ev2 db3 n3 ev3 hs1 hs2 hs3 hcm
          have hok := stagesOk_all_ok eng net server repo now db db1 n1 ev1 db2 n2 ev2 db3 n3 ev3 hs1 hs2 hs3
          have herr : runError eng net server repo now db = none := by
            unfold runError
            simp only [hs1, hs2, hs3, hcm]
          refine ⟨by rw [hrun, herr], fun m' hm' => ?_, ?_⟩
          · rw [hrun] at hm'
            exact Option.noConfusion hm'
          · rw [hrun, hok]
            simp only [iff_true]
            simp

theorem C1_transaction_atomicity_witness :
    (runSync engFailHonors netHonorsOnly "jp" "haruki-sekai-master" 0 dbEmpty).1 = dbEmpty ∧
    (runSync engFailHonors netHonorsOnly "jp" "haruki-sekai-master" 0 dbEmpty).2.1.success = false ∧
    Ev.rollbackEv ∈ (runSync engFailHonors netHonorsOnly "jp" "haruki-sekai-master" 0 dbEmpty).2.2 :=
  (C1_transaction_atomicity engFailHonors netHonorsOnly "jp" "haruki-sekai-master" 0 dbEmpty).2.1
    "boom" (by decide)

/-- C10: the summary has success true exactly when error is none, and
when a stage raises, the counts of stages completed before the exception
keep the number of submitted rows while the visible database reverts to
its pre-run state. -/
theorem C10_summary_invariants (eng : Engine) (net : Net) (server repo : String)
    (now : Nat) (db : Db) :
    ((runSync eng net server repo now db).2.1.success = true ↔
      (runSync eng net server repo now db).2.1.error = none) ∧
    (∀ db1 n1 ev1 m ev2,
      sync_honors eng net server repo now db = (Except.ok (db1, n1), ev1) →
      sync_bonds_honors eng net server repo now db1 = (Except.error m, ev2) →
      (runSync eng net server repo now db).2.1.honors = n1 ∧
      (runSync eng net server repo now db).2.1.bonds_honors = 0 ∧
      (runSync eng net server repo now db).2.1.honor_groups = 0 ∧
      (runSync eng net server repo now db).1 = db) ∧
    (∀ db1 n1 ev1 db2 n2 ev2 m ev3,
      sync_honors eng net server repo now db = (Except.ok (db1, n1), ev1) →
      sync_bonds_honors eng net server repo now db1 = (Except.ok (db2, n2), ev2) →
      sync_honor_groups eng net server repo now db2 = (Except.error m, ev3) →
      (runSync eng net server repo now db).2.1.honors = n1 ∧
      (runSync eng net server repo now db).2.1.bonds_honors = n2 ∧
      (runSync eng net server repo now db).2.1.honor_groups = 0 ∧
      (runSync eng net server repo now db).1 = db) ∧
    (∀ db1 n1 ev1 db2 n2 ev2 db3 n3 ev3 m,
      sync_honors eng net server repo now db = (Except.ok (db1, n1), ev1) →
      sync_bonds_honors eng net server repo now db1 = (Except.ok (db2, n2), ev2) →
      sync_honor_groups eng net server repo now db2 = (Except.ok (db3, n3), ev3) →
      eng DbOp.commitOp = some m →
      (runSync eng net server repo now db).2.1.honors = n1 ∧
      (runSync eng net server repo now db).2.1.bonds_honors = n2 ∧
      (runSync eng net server repo now db).2.1.honor_groups = n3 ∧
      (runSync eng net server repo now db).1 = db) := by
  refine ⟨?_, ?_, ?_, ?_⟩
  · rcases hs1 : sync_honors eng net server repo now db with ⟨r1, ev1⟩
    cases r1 with
    | error m =>
      rw [runSync_stage1_err eng net server repo now db m ev1 hs1]
      simp
    | ok p1 =>
      obtain ⟨db1, n1⟩ := p1
      rcases hs2 : sync_bonds_honors eng net server repo now db1 with ⟨r2, ev2⟩
      cases r2 with
      | error m =>
        rw [runSync_stage2_err eng net server repo now db db1 n1 ev1 m ev2 hs1 hs2]
        simp
      | ok p2 =>
        obtain ⟨db2, n2⟩ := p2
        rcases hs3 : sync_honor_groups eng net server repo now db2 with ⟨r3, ev3⟩
        cases r3 with
        | error m =>
          rw [runSync_stage3_err eng net server repo now db db1 n1 ev1 db2 n2 ev2 m ev3 hs1 hs2 hs3]
          simp
        | ok p3 =>
          obtain ⟨db3, n3⟩ := p3
          cases hcm : eng DbOp.commitOp with
          | some m =>
            rw [runSync_commit_err eng net server repo now db db1 n1 ev1 db2 n2 ev2 db3 n3 ev3 m hs1 hs2 hs3 hcm]
            simp
          | none =>
            rw [runSync_commit_ok eng net server repo now db db1 n1 ev1 db2 n2 ev2 db3 n3 ev3 hs1 hs2 hs3 hcm]
            simp
  · intro db1 n1 ev1 m ev2 h1 h2
    rw [runSync_stage2_err eng net server repo now db db1 n1 ev1 m ev2 h1 h2]
    exact ⟨rfl, rfl, rfl, rfl⟩
  · intro db1 n1 ev1 db2 n2 ev2 m ev3 h1 h2 h3
    rw [runSync_stage3_err eng net server repo now db db1 n1 ev1 db2 n2 ev2 m ev3 h1 h2 h3]
    exact ⟨rfl, rfl, rfl, rfl⟩
  · intro db1 n1 ev1 db2 n2 ev2 db3 n3 ev3 m h1 h2 h3 hc
    rw [runSync_commit_err eng net server repo now db db1 n1 ev1 db2 n2 ev2 db3 n3 ev3 m h1 h2 h3 hc]
    exact ⟨rfl, rfl, rfl, rfl⟩

theorem C10_summary_invariants_witness :
    (runSync engFailBonds netHonorsBonds "jp" "haruki-sekai-master" 0 dbEmpty).2.1.honors = 1 ∧
    (runSync engFailBonds netHonorsBonds "jp" "haruki-sekai-master" 0 dbEmpty).2.1.bonds_honors = 0 ∧
    (runSync engFailBonds netHonorsBonds "jp" "haruki-sekai-master" 0 dbEmpty).2.1.honor_groups = 0 ∧
    (runSync engFailBonds netHonorsBonds "jp" "haruki-sekai-master" 0 dbEmpty).1 = dbEmpty := by
  have h := (C10_summary_invariants engFailBonds netHonorsBonds "jp" "haruki-sekai-master" 0 dbEmpty).2.1
  exact h _ 1 _ "boom" _ rfl rfl

/-- C4: fetch tries the primary raw URL first; if that attempt ends in a
transport error, an HTTP error status or an invalid JSON body, the CDN URL
for the same filename is tried next; the primary is attempted exactly once
per fetch. -/
theorem C4_fetch_fallback (net : Net) (repo file : String) :
    ((fetch_json net repo file).2.head? = some (rawUrl repo file)) ∧
    (∀ d, net (rawUrl repo file) = Attempt.ok d →
      fetch_json net repo file = (some d, [rawUrl repo file])) ∧
    (attemptOk (net (rawUrl repo file)) = false →
      (fetch_json net repo file).2 = [rawUrl repo file, cdnUrl repo file] ∧
      (fetch_json net repo file).1 = attemptData (net (cdnUrl repo file))) ∧
    ((fetch_json net repo file).2.count (rawUrl repo file) = 1) := by
  have hne := rawUrl_ne_cdnUrl repo file
  unfold fetch_json fetchUrls
  cases hr : net (rawUrl repo file) with
  | ok d =>
    rw [fetchFrom_ok net _ _ d hr]
    refine ⟨rfl, ?_, ?_, ?_⟩
    · intro d' hd'
      injection hd' with hdd
      rw [hdd]
    · intro hfail
      exact absurd hfail (by simp [attemptOk])
    · simp
  | transportError m =>
    have hfail : attemptOk (net (rawUrl repo file)) = false := by simp [attemptOk, hr]
    rw [fetchFrom_fail net _ _ hfail]
    cases hc : net (cdnUrl repo file) with
    | ok d2 =>
      rw [fetchFrom_ok net _ _ d2 hc]
      refine ⟨rfl, ?_, fun _ => ⟨rfl, rfl⟩, ?_⟩
      · intro d' hd'
        exact Attempt.noConfusion hd'
      · simp [List.count_cons, hne]
    | transportError m2 =>
      rw [fetchFrom_fail net _ _ (by simp [attemptOk, hc]), fetchFrom_nil]
      refine ⟨rfl, ?_, fun _ => ⟨rfl, rfl⟩, ?_⟩
      · intro d' hd'
        exact Attempt.noConfusion hd'
      · simp [List.count_cons, hne]
    | httpErrorStatus m2 =>
      rw [fetchFrom_fail net _ _ (by simp [attemptOk, hc]), fetchFrom_nil]
      refine ⟨rfl, ?_, fun _ => ⟨rfl, rfl⟩, ?_⟩
      · intro d' hd'
        exact Attempt.noConfusion hd'
      · simp [List.count_cons, hne]
    | invalidJson m2 =>
      rw [fetchFrom_fail net _ _ (by simp [attemptOk, hc]), fetchFrom_nil]
      refine ⟨rfl, ?_, fun _ => ⟨rfl, rfl⟩, ?_⟩
      · intro d' hd'
        exact Attempt.noConfusion hd'
      · simp [List.count_cons, hne]
  | httpErrorStatus m =>
    have hfail : attemptOk (net (rawUrl repo file)) = false := by simp [attemptOk, hr]
    rw [fetchFrom_fail net _ _ hfail]
    cases hc : net (cdnUrl repo file) with
    | ok d2 =>
      rw [fetchFrom_ok net _ _ d2 hc]
      refine ⟨rfl, ?_, fun _ => ⟨rfl, rfl⟩, ?_⟩
      · intro d' hd'
        exact Attempt.noConfusion hd'
      · simp [List.count_cons, hne]
    | transportError m2 =>
      rw [fetchFrom_fail net _ _ (by simp [attemptOk, hc]), fetchFrom_nil]
      refine ⟨rfl, ?_, fun _ => ⟨rfl, rfl⟩, ?_⟩
      · intro d' hd'
        exact Attempt.noConfusion hd'
      · simp [List.count_cons, hne]
    | httpErrorStatus m2 =>
      rw [fetchFrom_fail net _ _ (by simp [attemptOk, hc]), fetchFrom_nil]
      refine ⟨rfl, ?_, fun _ => ⟨rfl, rfl⟩, ?_⟩
      · intro d' hd'
        exact Attempt.noConfusion hd'
      · simp [List.count_cons, hne]
    | invalidJson m2 =>
      rw [fetchFrom_fail net _ _ (by simp [attemptOk, hc]), fetchFrom_nil]
      refine ⟨rfl, ?_, fun _ => ⟨rfl, rfl⟩, ?_⟩
      · intro d' hd'
        exact Attempt.noConfusion hd'
      · simp [List.count_cons, hne]
  | invalidJson m =>
    have hfail : attemptOk (net (rawUrl repo file)) = false := by simp [attemptOk, hr]
    rw [fetchFrom_fail net _ _ hfail]
    cases hc : net (cdnUrl repo file) with
    | ok d2 =>
      rw [fetchFrom_ok net _ _ d2 hc]
      refine ⟨rfl, ?_, fun _ => ⟨rfl, rfl⟩, ?_⟩
      · intro d' hd'
        exact Attempt.noConfusion hd'
      · simp [List.count_cons, hne]
    | transportError m2 =>
      rw [fetchFrom_fail net _ _ (by simp [attemptOk, hc]), fetchFrom_nil]
      refine ⟨rfl, ?_, fun _ => ⟨rfl, rfl⟩, ?_⟩
      · intro d' hd'
        exact Attempt.noConfusion hd'
      · simp [List.count_cons, hne]
    | httpErrorStatus m2 =>
      rw [fetchFrom_fail net _ _ (by simp [attemptOk, hc]), fetchFrom_nil]
      refine ⟨rfl, ?_, fun _ => ⟨rfl, rfl⟩, ?_⟩
      · intro d' hd'
        exact Attempt.noConfusion hd'
      · simp [List.count_cons, hne]
    | invalidJson m2 =>
      rw [fetchFrom_fail net _ _ (by simp [attemptOk, hc]), fetchFrom_nil]
      refine ⟨rfl, ?_, fun _ => ⟨rfl, rfl⟩, ?_⟩
      · intro d' hd'
        exact Attempt.noConfusion hd'
      · simp [List.count_cons, hne]

theorem C4_fetch_fallback_witness :
    fetch_json netHonorsOnly "haruki-sekai-master" "honors.json"
      = (some (Jsonv.arr [Jsonv.obj [("id", Jsonv.num 1)]]),
         [rawUrl "haruki-sekai-master" "honors.json"]) :=
  (C4_fetch_fallback netHonorsOnly "haruki-sekai-master" "honors.json").2.1
    (Jsonv.arr [Jsonv.obj [("id", Jsonv.num 1)]]) (by decide)

theorem honorsOp_notin_bonds_events (eng : Engine) (net : Net) (server repo : String)
    (now : Nat) (db : Db) :
    Ev.dbOpEv DbOp.upsertHonorsOp ∉ (sync_bonds_honors eng net server repo now db).2 := by
  intro hmem
  rcases sync_bonds_events eng net server repo now db _ hmem with ⟨u, hu⟩ | hx
  · exact Ev.noConfusion hu
  · exact absurd hx (by decide)

theorem honorsOp_notin_groups_events (eng : Engine) (net : Net) (server repo : String)
    (now : Nat) (db : Db) :
    Ev.dbOpEv DbOp.upsertHonorsOp ∉ (sync_honor_groups eng net server repo now db).2 := by
  intro hmem
  rcases sync_groups_events eng net server repo now db _ hmem with ⟨u, hu⟩ | hx
  · exact Ev.noConfusion hu
  · exact absurd hx (by decide)

theorem bondsOp_notin_honors_events (eng : Engine) (net : Net) (server repo : String)
    (now : Nat) (db : Db) :
    Ev.dbOpEv DbOp.upsertBondsOp ∉ (sync_honors eng net server repo now db).2 := by
  intro hmem
  rcases sync_honors_events eng net server repo now db _ hmem with ⟨u, hu⟩ | hx
  · exact Ev.noConfusion hu
  · exact absurd hx (by decide)

theorem bondsOp_notin_groups_events (eng : Engine) (net : Net) (server repo : String)
    (now : Nat) (db : Db) :
    Ev.dbOpEv DbOp.upsertBondsOp ∉ (sync_honor_groups eng net server repo now db).2 := by
  intro hmem
  rcases sync_groups_events eng net server repo now db _ hmem with ⟨u, hu⟩ | hx
  · exact Ev.noConfusion hu
  · exact absurd hx (by decide)

theorem groupsOp_notin_honors_events (eng : Engine) (net : Net) (server repo : String)
    (now : Nat) (db : Db) :
    Ev.dbOpEv DbOp.upsertGroupsOp ∉ (sync_honors eng net server repo now db).2 := by
  intro hmem
  rcases sync_honors_events eng net server repo now db _ hmem with ⟨u, hu⟩ | hx
  · exact Ev.noConfusion hu
  · exact absurd hx (by decide)

theorem groupsOp_notin_bonds_events (eng : Engine) (net : Net) (server repo : String)
    (now : Nat) (db : Db) :
    Ev.dbOpEv DbOp.upsertGroupsOp ∉ (sync_bonds_honors eng net server repo now db).2 := by
  intro hmem
  rcases sync_bonds_events eng net server repo now db _ hmem with ⟨u, hu⟩ | hx
  · exact Ev.noConfusion hu
  · exact absurd hx (by decide)

/-- C5: when both candidate URLs for a file fail, fetch returns none
rather than raising; the corresponding sync stage then skips its upsert,
records a count of zero, and the run still reaches success provided the
other stages and the commit raise no exception. -/
theorem C5_missing_file_tolerance (eng : Engine) (net : Net) (server repo : String)
    (now : Nat) (db : Db) :
    (∀ file, attemptOk (net (rawUrl repo file)) = false →
      attemptOk (net (cdnUrl repo file)) = false →
      (fetch_json net repo file).1 = none) ∧
    (attemptOk (net (rawUrl repo "honors.json")) = false →
      attemptOk (net (cdnUrl repo "honors.json")) = false →
      eng DbOp.upsertBondsOp = none → eng DbOp.upsertGroupsOp = none →
      eng DbOp.commitOp = none →
      (runSync eng net server repo now db).2.1.honors = 0 ∧
      (runSync eng net server repo now db).2.1.success = true ∧
      Ev.dbOpEv DbOp.upsertHonorsOp ∉ (runSync eng net server repo now db).2.2) ∧
    (attemptOk (net (rawUrl repo "bondsHonors.json")) = false →
      attemptOk (net (cdnUrl repo "bondsHonors.json")) = false →
      eng DbOp.upsertHonorsOp = none → eng DbOp.upsertGroupsOp = none →
      eng DbOp.commitOp = none →
      (runSync eng net server repo now db).2.1.bonds_honors = 0 ∧
      (runSync eng net server repo now db).2.1.success = true ∧
      Ev.dbOpEv DbOp.upsertBondsOp ∉ (runSync eng net server repo now db).2.2) ∧
    (attemptOk (net (rawUrl repo "honorGroups.json")) = false →
      attemptOk (net (cdnUrl repo "honorGroups.json")) = false →
      eng DbOp.upsertHonorsOp = none → eng DbOp.upsertBondsOp = none →
      eng DbOp.commitOp = none →
      (runSync eng net server repo now db).2.1.honor_groups = 0 ∧
      (runSync eng net server repo now db).2.1.success = true ∧
      Ev.dbOpEv DbOp.upsertGroupsOp ∉ (runSync eng net server repo now db).2.2) := by
  refine ⟨?_, ?_, ?_, ?_⟩
  · intro file h1 h2
    rw [fetch_json_bothFail net repo file h1 h2]
  · intro hf1 hf2 hb hg hcm
    have hfn : (fetch_json net repo "honors.json").1 = none := by
      rw [fetch_json_bothFail net repo "honors.json" hf1 hf2]
    have hs1 := sync_honors_fetch_none eng net server repo now db hfn
    obtain ⟨p2, hp2⟩ := sync_bonds_ok_of_eng_none eng net server repo now db hb
    rcases hsp2 : sync_bonds_honors eng net server repo now db with ⟨r2, ev2⟩
    rw [hsp2] at hp2
    cases hp2
    obtain ⟨db2, n2⟩ := p2
    obtain ⟨p3, hp3⟩ := sync_groups_ok_of_eng_none eng net server repo now db2 hg
    rcases hsp3 : sync_honor_groups eng net server repo now db2 with ⟨r3, ev3⟩
    rw [hsp3] at hp3
    cases hp3
    obtain ⟨db3, n3⟩ := p3
    have hrun := runSync_commit_ok eng net server repo now db db 0
      ((fetch_json net repo "honors.json").2.map Ev.fetchAttempt)
      db2 n2 ev2 db3 n3 ev3 hs1 hsp2 hsp3 hcm
    rw [hrun]
    refine ⟨rfl, rfl, ?_⟩
    intro hmem
    rcases List.mem_append.mp hmem with hin | hone
    · rcases List.mem_append.mp hin with hin2 | hc
      · rcases List.mem_append.mp hin2 with ha | hb2
        · simp at ha
        · have := honorsOp_notin_bonds_events eng net server repo now db
          rw [hsp2] at this
          exact this hb2
      · have := honorsOp_notin_groups_events eng net server repo now db2
        rw [hsp3] at this
        exact this hc
    · simp at hone
  · intro hf1 hf2 hh hg hcm
    have hfn : (fetch_json net repo "bondsHonors.json").1 = none := by
      rw [fetch_json_bothFail net repo "bondsHonors.json" hf1 hf2]
    obtain ⟨p1, hp1⟩ := sync_honors_ok_of_eng_none eng net server repo now db hh
    rcases hsp1 : sync_honors eng net server repo now db with ⟨r1, ev1⟩
    rw [hsp1] at hp1
    cases hp1
    obtain ⟨db1, n1⟩ := p1
    have hs2 := sync_bonds_fetch_none eng net server repo now db1 hfn
    obtain ⟨p3, hp3⟩ := sync_groups_ok_of_eng_none eng net server repo now db1 hg
    rcases hsp3 : sync_honor_groups eng net server repo now db1 with ⟨r3, ev3⟩
    rw [hsp3] at hp3
    cases hp3
    obtain ⟨db3, n3⟩ := p3
    have hrun := runSync_commit_ok eng net server repo now db db1 n1 ev1 db1 0
      ((fetch_json net repo "bondsHonors.json").2.map Ev.fetchAttempt)
      db3 n3 ev3 hsp1 hs2 hsp3 hcm
    rw [hrun]
    refine ⟨rfl, rfl, ?_⟩
    intro hmem
    rcases List.mem_append.mp hmem with hin | hone
    · rcases List.mem_append.mp hin with hin2 | hc
      · rcases List.mem_append.mp hin2 with ha | hb2
        · have := bondsOp_notin_honors_events eng net server repo now db
          rw [hsp1] at this
          exact this ha
        · simp at hb2
      · have := bondsOp_notin_groups_events eng net server repo now db1
        rw [hsp3] at this
        exact this hc
    · simp at hone
  · intro hf1 hf2 hh hb hcm
    have hfn : (fetch_json net repo "honorGroups.json").1 = none := by
      rw [fetch_json_bothFail net repo "honorGroups.json" hf1 hf2]
    obtain ⟨p1, hp1⟩ := sync_honors_ok_of_eng_none eng net server repo now db hh
    rcases hsp1 : sync_honors eng net server repo now db with ⟨r1, ev1⟩
    rw [hsp1] at hp1
    cases hp1
    obtain ⟨db1, n1⟩ := p1
    obtain ⟨p2, hp2⟩ := sync_bonds_ok_of_eng_none eng net server repo now db1 hb
    rcases hsp2 : sync_bonds_honors eng net server repo now db1 with ⟨r2, ev2⟩
    rw [hsp2] at hp2
    cases hp2
    obtain ⟨db2, n2⟩ := p2
    have hs3 := sync_groups_fetch_none eng net server repo now db2 hfn
    have hrun := runSync_commit_ok eng net server repo now db db1 n1 ev1 db2 n2 ev2 db2 0
      ((fetch_json net repo "honorGroups.json").2.map Ev.fetchAttempt)
      hsp1 hsp2 hs3 hcm
    rw [hrun]
    refine ⟨rfl, rfl, ?_⟩
    intro hmem
    rcases List.mem_append.mp hmem with hin | hone
    · rcases List.mem_append.mp hin with hin2 | hc
      · rcases List.mem_append.mp hin2 with ha | hb2
        · have := groupsOp_notin_honors_events eng net server repo now db
          rw [hsp1] at this
          exact this ha
        · have := groupsOp_notin_bonds_events eng net server repo now db1
          rw [hsp2] at this
          exact this hb2
      · simp at hc
    · simp at hone

theorem C5_missing_file_tolerance_witness :
    (runSync engNone netDown "jp" "haruki-sekai-master" 0 dbEmpty).2.1.honors = 0 ∧
    (runSync engNone netDown "jp" "haruki-sekai-master" 0 dbEmpty).2.1.success = true ∧
    Ev.dbOpEv DbOp.upsertHonorsOp ∉
      (runSync engNone netDown "jp" "haruki-sekai-master" 0 dbEmpty).2.2 :=
  (C5_missing_file_tolerance engNone netDown "jp" "haruki-sekai-master" 0 dbEmpty).2.1
    (by decide) (by decide) rfl rfl rfl

/-- C9: a fetch that succeeds with an empty JSON array is handled exactly
like both sources failing: the stage skips its upsert, leaves the
database untouched and returns a count of zero. -/
theorem C9_empty_array_like_missing (eng : Engine) (net net2 : Net)
    (server repo : String) (now : Nat) (db : Db) :
    (net (rawUrl repo "honors.json") = Attempt.ok (Jsonv.arr []) →
      attemptOk (net2 (rawUrl repo "honors.json")) = false →
      attemptOk (net2 (cdnUrl repo "honors.json")) = false →
      (sync_honors eng net server repo now db).1 = Except.ok (db, 0) ∧
      (sync_honors eng net server repo now db).1
        = (sync_honors eng net2 server repo now db).1 ∧
      Ev.dbOpEv DbOp.upsertHonorsOp ∉ (sync_honors eng net server repo now db).2) ∧
    (net (rawUrl repo "bondsHonors.json") = Attempt.ok (Jsonv.arr []) →
      attemptOk (net2 (rawUrl repo "bondsHonors.json")) = false →
      attemptOk (net2 (cdnUrl repo "bondsHonors.json")) = false →
      (sync_bonds_honors eng net server repo now db).1 = Except.ok (db, 0) ∧
      (sync_bonds_honors eng net server repo now db).1
        = (sync_bonds_honors eng net2 server repo now db).1 ∧
      Ev.dbOpEv DbOp.upsertBondsOp ∉ (sync_bonds_honors eng net server repo now db).2) ∧
    (net (rawUrl repo "honorGroups.json") = Attempt.ok (Jsonv.arr []) →
      attemptOk (net2 (rawUrl repo "honorGroups.json")) = false →
      attemptOk (net2 (cdnUrl repo "honorGroups.json")) = false →
      (sync_honor_groups eng net server repo now db).1 = Except.ok (db, 0) ∧
      (sync_honor_groups eng net server repo now db).1
        = (sync_honor_groups eng net2 server repo now db).1 ∧
      Ev.dbOpEv DbOp.upsertGroupsOp ∉ (sync_honor_groups eng net server repo now db).2) := by
  refine ⟨?_, ?_, ?_⟩
  · intro hr hn1 hn2
    have hfj : fetch_json net repo "honors.json"
        = (some (Jsonv.arr []), [rawUrl repo "honors.json"]) := by
      unfold fetch_json fetchUrls
      exact fetchFrom_ok net _ _ _ hr
    have h1 : (fetch_json net repo "honors.json").1 = some (Jsonv.arr []) := by rw [hfj]
    have hs := sync_honors_falsy eng net server repo now db (Jsonv.arr []) h1 rfl
    have hfn2 : (fetch_json net2 repo "honors.json").1 = none := by
      rw [fetch_json_bothFail net2 repo "honors.json" hn1 hn2]
    have hs2 := sync_honors_fetch_none eng net2 server repo now db hfn2
    rw [hs, hs2]
    exact ⟨rfl, rfl, by simp⟩
  · intro hr hn1 hn2
    have hfj : fetch_json net repo "bondsHonors.json"
        = (some (Jsonv.arr []), [rawUrl repo "bondsHonors.json"]) := by
      unfold fetch_json fetchUrls
      exact fetchFrom_ok net _ _ _ hr
    have h1 : (fetch_json net repo "bondsHonors.json").1 = some (Jsonv.arr []) := by rw [hfj]
    have hs := sync_bonds_falsy eng net server repo now db (Jsonv.arr []) h1 rfl
    have hfn2 : (fetch_json net2 repo "bondsHonors.json").1 = none := by
      rw [fetch_json_bothFail net2 repo "bondsHonors.json" hn1 hn2]
    have hs2 := sync_bonds_fetch_none eng net2 server repo now db hfn2
    rw [hs, hs2]
    exact ⟨rfl, rfl, by simp⟩
  · intro hr hn1 hn2
    have hfj : fetch_json net repo "honorGroups.json"
        = (some (Jsonv.arr []), [rawUrl repo "honorGroups.json"]) := by
      unfold fetch_json fetchUrls
      exact fetchFrom_ok net _ _ _ hr
    have h1 : (fetch_json net repo "honorGroups.json").1 = some (Jsonv.arr []) := by rw [hfj]
    have hs := sync_groups_falsy eng net server repo now db (Jsonv.arr []) h1 rfl
    have hfn2 : (fetch_json net2 repo "honorGroups.json").1 = none := by
      rw [fetch_json_bothFail net2 repo "honorGroups.json" hn1 hn2]
    have hs2 := sync_groups_fetch_none eng net2 server repo now db hfn2
    rw [hs, hs2]
    exact ⟨rfl, rfl, by simp⟩

theorem C9_empty_array_like_missing_witness :
    (sync_honors engNone netEmptyHonors "jp" "haruki-sekai-master" 0 dbEmpty).1
      = Except.ok (dbEmpty, 0) ∧
    (sync_honors engNone netEmptyHonors "jp" "haruki-sekai-master" 0 dbEmpty).1
      = (sync_honors engNone netDown "jp" "haruki-sekai-master" 0 dbEmpty).1 ∧
    Ev.dbOpEv DbOp.upsertHonorsOp ∉
      (sync_honors engNone netEmptyHonors "jp" "haruki-sekai-master" 0 dbEmpty).2 :=
  (C9_empty_array_like_missing engNone netEmptyHonors netDown
      "jp" "haruki-sekai-master" 0 dbEmpty).1 (by decide) (by decide) (by decide)

theorem SERVERS_lookup_eq_none {s : String} (h : s ∉ ["cn", "jp", "en", "tw", "kr"]) :
    SERVERS.lookup s = none := by
  simp only [List.mem_cons, List.not_mem_nil, or_false, not_or] at h
  obtain ⟨h1, h2, h3, h4, h5⟩ := h
  have b1 : (s == "cn") = false := beq_eq_false_iff_ne.mpr h1
  have b2 : (s == "jp") = false := beq_eq_false_iff_ne.mpr h2
  have b3 : (s == "en") = false := beq_eq_false_iff_ne.mpr h3
  have b4 : (s == "tw") = false := beq_eq_false_iff_ne.mpr h4
  have b5 : (s == "kr") = false := beq_eq_false_iff_ne.mpr h5
  simp [SERVERS, List.lookup, b1, b2, b3, b4, b5]

/-- C7: a region code outside the five known codes makes startup fail
before the database connection is opened or any network request is made
(the syncer constructor raises with no event, and main exits 1 with an
empty event trace); every known code resolves to a non-empty repository
identifier and a non-empty display name. -/
theorem C7_region_resolver (eng : Engine) (net : Net) (env : String → Option String)
    (now : Nat) (db : Db) (s : String) :
    (s ∈ ["cn", "jp", "en", "tw", "kr"] →
      ∃ repo ds, SERVERS.lookup s = some repo ∧ repo ≠ "" ∧
        SERVER_NAMES.lookup s = some ds ∧ ds ≠ "") ∧
    (s ∉ ["cn", "jp", "en", "tw", "kr"] →
      syncerInit eng s = (Except.error ("Unknown server: " ++ s), [])) ∧
    (((env "SERVER").getD "cn") ∉ ["cn", "jp", "en", "tw", "kr"] →
      mainProg eng net env now db = (1, [])) := by
  refine ⟨?_, ?_, ?_⟩
  · intro hs
    fin_cases hs <;> exact ⟨_, _, rfl, by decide, rfl, by decide⟩
  · intro hs
    have hn := SERVERS_lookup_eq_none hs
    unfold syncerInit
    rw [hn]
  · intro hs
    have hn := SERVERS_lookup_eq_none hs
    unfold mainProg
    cases he : env "DATABASE_URL" with
    | none => rfl
    | some dburl =>
      by_cases hd : dburl = ""
      · simp [hd]
      · simp [hd, hn]

theorem C7_region_resolver_witness :
    (∃ repo ds, SERVERS.lookup "jp" = some repo ∧ repo ≠ "" ∧
      SERVER_NAMES.lookup "jp" = some ds ∧ ds ≠ "") ∧
    syncerInit engNone "xx" = (Except.error ("Unknown server: " ++ "xx"), []) ∧
    mainProg engNone netDown envBadServer 0 dbEmpty = (1, []) :=
  ⟨(C7_region_resolver engNone netDown envBadServer 0 dbEmpty "jp").1 (by decide),
   (C7_region_resolver engNone netDown envBadServer 0 dbEmpty "xx").2.1 (by decide),
   (C7_region_resolver engNone netDown envBadServer 0 dbEmpty "xx").2.2 (by decide)⟩

theorem mainProg_no_url (eng : Engine) (net : Net) (env : String → Option String)
    (now : Nat) (db : Db) (h : env "DATABASE_URL" = none) :
    mainProg eng net env now db = (1, []) := by
  unfold mainProg
  rw [h]

theorem mainProg_empty_url (eng : Engine) (net : Net) (env : String → Option String)
    (now : Nat) (db : Db) (h : env "DATABASE_URL" = some "") :
    mainProg eng net env now db = (1, []) := by
  unfold mainProg
  rw [h]
  simp

theorem mainProg_bad_server (eng : Engine) (net : Net) (env : String → Option String)
    (now : Nat) (db : Db) (u : String) (hu : env "DATABASE_URL" = some u)
    (hne : u ≠ "") (hs : SERVERS.lookup ((env "SERVER").getD "cn") = none) :
    mainProg eng net env now db = (1, []) := by
  unfold mainProg
  rw [hu]
  simp [hne, hs]

theorem mainProg_connect_fail (eng : Engine) (net : Net) (env : String → Option String)
    (now : Nat) (db : Db) (u repo m : String) (hu : env "DATABASE_URL" = some u)
    (hne : u ≠ "") (hs : SERVERS.lookup ((env "SERVER").getD "cn") = some repo)
    (hc : eng DbOp.connectOp = some m) :
    mainProg eng net env now db = (1, [Ev.dbOpEv DbOp.connectOp]) := by
  have hinit : syncerInit eng ((env "SERVER").getD "cn")
      = (Except.error m, [Ev.dbOpEv DbOp.connectOp]) := by
    unfold syncerInit
    simp only [hs, hc]
  unfold mainProg
  rw [hu]
  simp [hne, hs, hinit]

theorem mainProg_run (eng : Engine) (net : Net) (env : String → Option String)
    (now : Nat) (db : Db) (u repo : String) (hu : env "DATABASE_URL" = some u)
    (hne : u ≠ "") (hs : SERVERS.lookup ((env "SERVER").getD "cn") = some repo)
    (hc : eng DbOp.connectOp = none) :
    mainProg eng net env now db
      = (if (runSync eng net ((env "SERVER").getD "cn") repo now db).2.1.success
         then 0 else 1,
         Ev.dbOpEv DbOp.connectOp
           :: (runSync eng net ((env "SERVER").getD "cn") repo now db).2.2) := by
  have hinit : syncerInit eng ((env "SERVER").getD "cn")
      = (Except.ok repo, [Ev.dbOpEv DbOp.connectOp]) := by
    unfold syncerInit
    simp only [hs, hc]
  unfold mainProg
  rw [hu]
  simp [hne, hs, hinit]

/-- C8: the process exits 0 exactly when the whole run succeeds, and
exits nonzero when the database URL is missing or empty, when the region
code is unknown, when the connection raises, or when the sync fails. -/
theorem C8_exit_contract (eng : Engine) (net : Net) (env : String → Option String)
    (now : Nat) (db : Db) :
    (env "DATABASE_URL" = none → mainProg eng net env now db = (1, [])) ∧
    (env "DATABASE_URL" = some "" → mainProg eng net env now db = (1, [])) ∧
    (SERVERS.lookup ((env "SERVER").getD "cn") = none →
      (mainProg eng net env now db).1 = 1) ∧
    (∀ m, eng DbOp.connectOp = some m → (mainProg eng net env now db).1 = 1) ∧
    ((mainProg eng net env now db).1 = 0 ↔
      ∃ u repo, env "DATABASE_URL" = some u ∧ u ≠ "" ∧
        SERVERS.lookup ((env "SERVER").getD "cn") = some repo ∧
        eng DbOp.connectOp = none ∧
        (runSync eng net ((env "SERVER").getD "cn") repo now db).2.1.success = true) := by
  refine ⟨fun h => mainProg_no_url eng net env now db h,
          fun h => mainProg_empty_url eng net env now db h, ?_, ?_, ?_⟩
  · intro hs
    cases hu : env "DATABASE_URL" with
    | none => rw [mainProg_no_url eng net env now db hu]
    | some u =>
      by_cases hne : u = ""
      · subst hne
        rw [mainProg_empty_url eng net env now db hu]
      · rw [mainProg_bad_server eng net env now db u hu hne hs]
  · intro m hm
    cases hu : env "DATABASE_URL" with
    | none => rw [mainProg_no_url eng net env now db hu]
    | some u =>
      by_cases hne : u = ""
      · subst hne
        rw [mainProg_empty_url eng net env now db hu]
      · cases hs : SERVERS.lookup ((env "SERVER").getD "cn") with
        | none => rw [mainProg_bad_server eng net env now db u hu hne hs]
        | some repo => rw [mainProg_connect_fail eng net env now db u repo m hu hne hs hm]
  · constructor
    · intro h0
      cases hu : env "DATABASE_URL" with
      | none =>
        rw [mainProg_no_url eng net env now db hu] at h0
        exact absurd h0 (by decide)
      | some u =>
        by_cases hne : u = ""
        · subst hne
          rw [mainProg_empty_url eng net env now db hu] at h0
          exact absurd h0 (by decide)
        · cases hs : SERVERS.lookup ((env "SERVER").getD "cn") with
          | none =>
            rw [mainProg_bad_server eng net env now db u hu hne hs] at h0
            exact absurd h0 (by decide)
          | some repo =>
            cases hc : eng DbOp.connectOp with
            | some m =>
              rw [mainProg_connect_fail eng net env now db u repo m hu hne hs hc] at h0
              exact absurd h0 (by decide)
            | none =>
              rw [mainProg_run eng net env now db u repo hu hne hs hc] at h0
              refine ⟨u, repo, rfl, hne, rfl, rfl, ?_⟩
              cases hsucc : (runSync eng net ((env "SERVER").getD "cn") repo now db).2.1.success with
              | true => rfl
              | false =>
                rw [hsucc] at h0
                simp at h0
    · rintro ⟨u, repo, hu, hne, hs, hc, hsucc⟩
      rw [mainProg_run eng net env now db u repo hu hne hs hc]
      simp [hsucc]

theorem C8_exit_contract_witness :
    mainProg engNone netDown envNone 0 dbEmpty = (1, []) ∧
    (mainProg engNone netDown envFull 0 dbEmpty).1 = 0 :=
  ⟨(C8_exit_contract engNone netDown envNone 0 dbEmpty).1 rfl,
   (C8_exit_contract engNone netDown envFull 0 dbEmpty).2.2.2.2.mpr
     ⟨"postgres://example", "haruki-sekai-master", rfl, by decide, by decide, rfl, by decide⟩⟩

/-- C6: upserting the same snapshot twice in succession yields the same
stored rows as the first upsert in every record column, with updated_at
set to the second sync time on every row whose identity occurs in the
snapshot, for all three tables. -/
theorem C6_idempotent_modulo_timestamp (server : String) (items : List Item)
    (n1 n2 : Nat) :
    (∀ tbl : List (Row HonorRec),
      upsertAll honorKey n2
          (upsertAll honorKey n1 tbl (items.map (honorRecOf server)))
          (items.map (honorRecOf server))
        = (upsertAll honorKey n1 tbl (items.map (honorRecOf server))).map
            (fun row =>
              if (pickLast honorKey (items.map (honorRecOf server))
                    (honorKey row.val)).isSome
              then ⟨row.val, n2⟩ else row) ∧
      (upsertAll honorKey n2
          (upsertAll honorKey n1 tbl (items.map (honorRecOf server)))
          (items.map (honorRecOf server))).map Row.val
        = (upsertAll honorKey n1 tbl (items.map (honorRecOf server))).map Row.val) ∧
    (∀ tbl : List (Row BondsHonorRec),
      upsertAll bondsKey n2
          (upsertAll bondsKey n1 tbl (items.map (bondsHonorRecOf server)))
          (items.map (bondsHonorRecOf server))
        = (upsertAll bondsKey n1 tbl (items.map (bondsHonorRecOf server))).map
            (fun row =>
              if (pickLast bondsKey (items.map (bondsHonorRecOf server))
                    (bondsKey row.val)).isSome
              then ⟨row.val, n2⟩ else row) ∧
      (upsertAll bondsKey n2
          (upsertAll bondsKey n1 tbl (items.map (bondsHonorRecOf server)))
          (items.map (bondsHonorRecOf server))).map Row.val
        = (upsertAll bondsKey n1 tbl (items.map (bondsHonorRecOf server))).map Row.val) ∧
    (∀ tbl : List (Row HonorGroupRec),
      upsertAll groupKey n2
          (upsertAll groupKey n1 tbl (items.map (honorGroupRecOf server)))
          (items.map (honorGroupRecOf server))
        = (upsertAll groupKey n1 tbl (items.map (honorGroupRecOf server))).map
            (fun row =>
              if (pickLast groupKey (items.map (honorGroupRecOf server))
                    (groupKey row.val)).isSome
              then ⟨row.val, n2⟩ else row) ∧
      (upsertAll groupKey n2
          (upsertAll groupKey n1 tbl (items.map (honorGroupRecOf server)))
          (items.map (honorGroupRecOf server))).map Row.val
        = (upsertAll groupKey n1 tbl (items.map (honorGroupRecOf server))).map Row.val) :=
  ⟨fun tbl => ⟨upsertAll_twice honorKey n1 n2 tbl _, upsertAll_twice_val honorKey n1 n2 tbl _⟩,
   fun tbl => ⟨upsertAll_twice bondsKey n1 n2 tbl _, upsertAll_twice_val bondsKey n1 n2 tbl _⟩,
   fun tbl => ⟨upsertAll_twice groupKey n1 n2 tbl _, upsertAll_twice_val groupKey n1 n2 tbl _⟩⟩

/-- C2 (amended): re-syncing a snapshot whose last object for an existing
row identity is the given object overwrites every mutable column of that
row with the mapped snapshot values and refreshes updated_at; a field
absent from the object is stored as null, except the levels list, which
is stored as an empty JSON array rather than null. -/
theorem C2_upsert_replace_amended (server : String) (items : List Item) (item : Item)
    (tbl : List (Row HonorRec)) (btbl : List (Row BondsHonorRec)) (n : Nat) :
    ((∃ row ∈ tbl, honorKey row.val = honorKey (honorRecOf server item)) →
      pickLast honorKey (items.map (honorRecOf server))
          (honorKey (honorRecOf server item)) = some (honorRecOf server item) →
      (∃ row ∈ upsertAll honorKey n tbl (items.map (honorRecOf server)),
        honorKey row.val = honorKey (honorRecOf server item)) ∧
      (∀ row ∈ upsertAll honorKey n tbl (items.map (honorRecOf server)),
        honorKey row.val = honorKey (honorRecOf server item) →
        row = ⟨honorRecOf server item, n⟩)) ∧
    ((∃ row ∈ btbl, bondsKey row.val = bondsKey (bondsHonorRecOf server item)) →
      pickLast bondsKey (items.map (bondsHonorRecOf server))
          (bondsKey (bondsHonorRecOf server item)) = some (bondsHonorRecOf server item) →
      (∃ row ∈ upsertAll bondsKey n btbl (items.map (bondsHonorRecOf server)),
        bondsKey row.val = bondsKey (bondsHonorRecOf server item)) ∧
      (∀ row ∈ upsertAll bondsKey n btbl (items.map (bondsHonorRecOf server)),
        bondsKey row.val = bondsKey (bondsHonorRecOf server item) →
        row = ⟨bondsHonorRecOf server item, n⟩)) ∧
    (item.lookup "seq" = none → (honorRecOf server item).seq = Jsonv.null) ∧
    (item.lookup "groupId" = none → (honorRecOf server item).group_id = Jsonv.null) ∧
    (item.lookup "description" = none →
      (bondsHonorRecOf server item).description = Jsonv.null) ∧
    (item.lookup "levels" = none → (honorRecOf server item).levels = Jsonv.arr []) := by
  refine ⟨?_, ?_, ?_, ?_, ?_, ?_⟩
  · intro _ hlast
    exact upsertAll_replaces honorKey n tbl (items.map (honorRecOf server))
      (honorRecOf server item) hlast
  · intro _ hlast
    exact upsertAll_replaces bondsKey n btbl (items.map (bondsHonorRecOf server))
      (bondsHonorRecOf server item) hlast
  · intro h
    simp [honorRecOf, jget, h]
  · intro h
    simp [honorRecOf, jget, h]
  · intro h
    simp [bondsHonorRecOf, jget, h]
  · intro h
    simp [honorRecOf, jgetD, h]

theorem C2_upsert_replace_counterexample :
    ([("id", Jsonv.num 1)] : Item).lookup "levels" = none ∧
    (upsertAll honorKey 9
        [⟨honorRecOf "jp" [("id", Jsonv.num 1), ("levels", Jsonv.arr [Jsonv.num 7])], 5⟩]
        [honorRecOf "jp" [("id", Jsonv.num 1)]]).map (fun row => row.val.levels)
      = [Jsonv.arr []] ∧
    Jsonv.arr [] ≠ Jsonv.null := by
  refine ⟨rfl, ?_, by decide⟩
  decide

theorem C2_upsert_replace_amended_witness :
    (∃ row ∈ upsertAll honorKey 9
        [(⟨honorRecOf "jp" [("id", Jsonv.num 1), ("seq", Jsonv.num 4)], 5⟩ : Row HonorRec)]
        ([([("id", Jsonv.num 1)] : Item)].map (honorRecOf "jp")),
      honorKey row.val = honorKey (honorRecOf "jp" [("id", Jsonv.num 1)])) ∧
    (∀ row ∈ upsertAll honorKey 9
        [(⟨honorRecOf "jp" [("id", Jsonv.num 1), ("seq", Jsonv.num 4)], 5⟩ : Row HonorRec)]
        ([([("id", Jsonv.num 1)] : Item)].map (honorRecOf "jp")),
      honorKey row.val = honorKey (honorRecOf "jp" [("id", Jsonv.num 1)]) →
      row = ⟨honorRecOf "jp" [("id", Jsonv.num 1)], 9⟩) :=
  (C2_upsert_replace_amended "jp" [[("id", Jsonv.num 1)]] [("id", Jsonv.num 1)]
      [⟨honorRecOf "jp" [("id", Jsonv.num 1), ("seq", Jsonv.num 4)], 5⟩] [] 9).1
    ⟨_, List.mem_singleton.mpr rfl, by decide⟩ (by decide)

/-- C3 (amended): each record mapper is a total function producing a
tuple with one value per non-timestamp column of its table, every key
missing from the source object maps to null, except the level-detail key
of the honors and bonds mappers, which maps to an empty JSON array. -/
theorem C3_mapper_totality_amended (server : String) (item : Item) :
    ((honorTuple (honorRecOf server item)).length + 1 = honorsColumns.length) ∧
    ((bondsHonorTuple (bondsHonorRecOf server item)).length + 1
      = bondsHonorsColumns.length) ∧
    ((honorGroupTuple (honorGroupRecOf server item)).length + 1
      = honorGroupsColumns.length) ∧
    (item.lookup "id" = none → (honorRecOf server item).honor_id = Jsonv.null) ∧
    (item.lookup "seq" = none → (honorRecOf server item).seq = Jsonv.null) ∧
    (item.lookup "groupId" = none → (honorRecOf server item).group_id = Jsonv.null) ∧
    (item.lookup "honorRarity" = none →
      (honorRecOf server item).honor_rarity = Jsonv.null) ∧
    (item.lookup "name" = none → (honorRecOf server item).name = Jsonv.null) ∧
    (item.lookup "assetbundleName" = none →
      (honorRecOf server item).asset_bundle_name = Jsonv.null) ∧
    (item.lookup "levels" = none → (honorRecOf server item).levels = Jsonv.arr []) ∧
    (item.lookup "id" = none → (bondsHonorRecOf server item).bonds_honor_id = Jsonv.null) ∧
    (item.lookup "seq" = none → (bondsHonorRecOf server item).seq = Jsonv.null) ∧
    (item.lookup "bondsGroupId" = none →
      (bondsHonorRecOf server item).bonds_group_id = Jsonv.null) ∧
    (item.lookup "gameCharacterUnitId1" = none →
      (bondsHonorRecOf server item).game_character_unit_id1 = Jsonv.null) ∧
    (item.lookup "gameCharacterUnitId2" = none →
      (bondsHonorRecOf server item).game_character_unit_id2 = Jsonv.null) ∧
    (item.lookup "honorRarity" = none →
      (bondsHonorRecOf server item).honor_rarity = Jsonv.null) ∧
    (item.lookup "name" = none → (bondsHonorRecOf server item).name = Jsonv.null) ∧
    (item.lookup "description" = none →
      (bondsHonorRecOf server item).description = Jsonv.null) ∧
    (item.lookup "levels" = none →
      (bondsHonorRecOf server item).levels = Jsonv.arr []) ∧
    (item.lookup "id" = none → (honorGroupRecOf server item).group_id = Jsonv.null) ∧
    (item.lookup "name" = none → (honorGroupRecOf server item).name = Jsonv.null) ∧
    (item.lookup "honorType" = none →
      (honorGroupRecOf server item).honor_type = Jsonv.null) ∧
    (item.lookup "backgroundAssetbundleName" = none →
      (honorGroupRecOf server item).background_asset_bundle_name = Jsonv.null) := by
  refine ⟨rfl, rfl, rfl, ?_, ?_, ?_, ?_, ?_, ?_, ?_, ?_, ?_, ?_, ?_, ?_, ?_, ?_, ?_, ?_,
          ?_, ?_, ?_, ?_⟩ <;>
    · intro h
      first
        | simp [honorRecOf, jget, jgetD, h]
        | simp [bondsHonorRecOf, jget, jgetD, h]
        | simp [honorGroupRecOf, jget, jgetD, h]

theorem C3_mapper_totality_counterexample :
    ([("id", Jsonv.num 3)] : Item).lookup "levels" = none ∧
    (honorRecOf "jp" [("id", Jsonv.num 3)]).levels = Jsonv.arr [] ∧
    (bondsHonorRecOf "jp" [("id", Jsonv.num 3)]).levels = Jsonv.arr [] ∧
    Jsonv.arr [] ≠ Jsonv.null :=
  ⟨rfl, rfl, rfl, by decide⟩

theorem C3_mapper_totality_amended_witness :
    (honorRecOf "jp" ([] : Item)).honor_id = Jsonv.null ∧
    (honorRecOf "jp" ([] : Item)).levels = Jsonv.arr [] ∧
    (honorGroupRecOf "jp" ([] : Item)).honor_type = Jsonv.null := by
  obtain ⟨-, -, -, h1, -, -, -, -, -, h2, -, -, -, -, -, -, -, -, -, -, -, h3, -⟩ :=
    C3_mapper_totality_amended "jp" ([] : Item)
  exact ⟨h1 rfl, h2 rfl, h3 rfl⟩
